import Mathlib

/-!
Verification of the VSS binary tree parser library (`cparserlib.c` and its
header `cparserlib.h`), the binary codec used by `binarytool.c`, and the
path-pattern search engine built on top of it.

Modelling conventions, used consistently below:

* C strings and byte streams are modelled as `List Nat`, one entry per byte
  (ASCII codes).  Length fields are modelled by the length of the list; the
  C structs always keep `xxxLen` equal to the length of the corresponding
  string, both in `populateNode` (which sets them from the stream) and in
  the generating tool `binarytool.c` (which sets them with `strlen`).
* `fread` of a single length byte at end of stream is modelled as yielding 0
  and `fread` of a content block is modelled as yielding the available
  prefix.  In C the destination of a failed `fread` is indeterminate (the
  return value `ret` is discarded); the model picks the zero/empty value.
  No claim below depends on the particular junk value.
* Tree-recursive functions take an explicit fuel argument so that they are
  structurally recursive and evaluable by the kernel; the public entry
  points instantiate the fuel with a bound that is proved (or evident)
  to be sufficient, mirroring the unbounded C recursion.
-/

/-- Node types, from `cparserlib.h`:
`typedef enum {SENSOR=1, ACTUATOR, ATTRIBUTE, BRANCH, STRUCT, PROPERTY} nodeTypes_t`
together with `#define UNKNOWN 0`. -/
inductive nodeTypes_t where
  | UNKNOWN
  | SENSOR
  | ACTUATOR
  | ATTRIBUTE
  | BRANCH
  | STRUCT
  | PROPERTY
deriving DecidableEq, Repr

/-- Node datatypes, from the (older-generation) header used by
`cparserlib.c` (`stringToDataType` / `dataTypeToString` enumerate exactly
these values, plus the shared `UNKNOWN = 0`). -/
inductive nodeDatatypes_t where
  | UNKNOWN
  | INT8
  | UINT8
  | INT16
  | UINT16
  | INT32
  | UINT32
  | DOUBLE
  | FLOAT
  | BOOLEAN
  | STRING
  | INT8ARRAY
  | UINT8ARRAY
  | INT16ARRAY
  | UINT16ARRAY
  | INT32ARRAY
  | UINT32ARRAY
  | DOUBLEARRAY
  | FLOATARRAY
  | BOOLEANARRAY
  | STRINGARRAY
deriving DecidableEq, Repr

/-- In-memory tree node, `struct node_t` of `cparserlib.h`.  String fields
are byte lists; the `xxxLen` struct members are represented by the list
lengths (see the modelling conventions above).  The `children` count byte
is represented by the length of the child list, and `child` by the list
itself.  The non-owning `parent` back-pointer carries no information that
the codec or the search engine reads apart from upward navigation, and is
omitted.  The `datatype` field holds the decoded `nodeDatatypes_t` value as
in the `.c` file (`thisNode->datatype = stringToDataType(...)`); when the
stream marks the datatype absent, `populateNode` leaves the field
unassigned (malloc junk), which the model renders as `UNKNOWN`, the one
value `writeNode` serialises as absent. -/
inductive node_t where
  | mk
      (name : List Nat)
      (type : nodeTypes_t)
      (uuid : List Nat)
      (description : List Nat)
      (datatype : nodeDatatypes_t)
      (min : List Nat)
      (max : List Nat)
      (unit : List Nat)
      (enumDef : List (List Nat))
      (defaultEnum : List Nat)
      (validate : Nat)
      (child : List node_t)

/-- `node->name`. -/
def node_t.name : node_t → List Nat
  | .mk n _ _ _ _ _ _ _ _ _ _ _ => n

/-- `node->type`. -/
def node_t.type : node_t → nodeTypes_t
  | .mk _ t _ _ _ _ _ _ _ _ _ _ => t

/-- `node->uuid`. -/
def node_t.uuid : node_t → List Nat
  | .mk _ _ u _ _ _ _ _ _ _ _ _ => u

/-- `node->description`. -/
def node_t.description : node_t → List Nat
  | .mk _ _ _ d _ _ _ _ _ _ _ _ => d

/-- `node->datatype`. -/
def node_t.datatype : node_t → nodeDatatypes_t
  | .mk _ _ _ _ d _ _ _ _ _ _ _ => d

/-- `node->min`. -/
def node_t.min : node_t → List Nat
  | .mk _ _ _ _ _ m _ _ _ _ _ _ => m

/-- `node->max`. -/
def node_t.max : node_t → List Nat
  | .mk _ _ _ _ _ _ m _ _ _ _ _ => m

/-- `node->unit`. -/
def node_t.unit : node_t → List Nat
  | .mk _ _ _ _ _ _ _ u _ _ _ _ => u

/-- `node->enumDef` (the `allowed` list), one byte list per element. -/
def node_t.enumDef : node_t → List (List Nat)
  | .mk _ _ _ _ _ _ _ _ e _ _ _ => e

/-- `node->defaultEnum`. -/
def node_t.defaultEnum : node_t → List Nat
  | .mk _ _ _ _ _ _ _ _ _ d _ _ => d

/-- `node->validate`. -/
def node_t.validate : node_t → Nat
  | .mk _ _ _ _ _ _ _ _ _ _ v _ => v

/-- `node->child` as an ordered list; `node->children` is its length. -/
def node_t.child : node_t → List node_t
  | .mk _ _ _ _ _ _ _ _ _ _ _ c => c

/-- ASCII for "sensor". -/
def sensorStr : List Nat := [115, 101, 110, 115, 111, 114]

/-- ASCII for "actuator". -/
def actuatorStr : List Nat := [97, 99, 116, 117, 97, 116, 111, 114]

/-- ASCII for "attribute". -/
def attributeStr : List Nat := [97, 116, 116, 114, 105, 98, 117, 116, 101]

/-- ASCII for "branch". -/
def branchStr : List Nat := [98, 114, 97, 110, 99, 104]

/-- `stringToNodeType` of `cparserlib.c`: chained `strcmp` against the four
type names of this format generation, anything else decodes to `UNKNOWN`
(reported but not fatal). -/
def stringToNodeType (type : List Nat) : nodeTypes_t :=
  if type = sensorStr then .SENSOR
  else if type = actuatorStr then .ACTUATOR
  else if type = attributeStr then .ATTRIBUTE
  else if type = branchStr then .BRANCH
  else .UNKNOWN

/-- `nodeTypeToString` of `cparserlib.c`: the four known type names;
`STRUCT`, `PROPERTY` and `UNKNOWN` serialise to the empty string. -/
def nodeTypeToString (type : nodeTypes_t) : List Nat :=
  if type = .SENSOR then sensorStr
  else if type = .ACTUATOR then actuatorStr
  else if type = .ATTRIBUTE then attributeStr
  else if type = .BRANCH then branchStr
  else []

/-- ASCII for "int8". -/
def int8Str : List Nat := [105, 110, 116, 56]

/-- ASCII for "uint8". -/
def uint8Str : List Nat := [117, 105, 110, 116, 56]

/-- ASCII for "int16". -/
def int16Str : List Nat := [105, 110, 116, 49, 54]

/-- ASCII for "uint16". -/
def uint16Str : List Nat := [117, 105, 110, 116, 49, 54]

/-- ASCII for "int32". -/
def int32Str : List Nat := [105, 110, 116, 51, 50]

/-- ASCII for "uint32". -/
def uint32Str : List Nat := [117, 105, 110, 116, 51, 50]

/-- ASCII for "double". -/
def doubleStr : List Nat := [100, 111, 117, 98, 108, 101]

/-- ASCII for "float". -/
def floatStr : List Nat := [102, 108, 111, 97, 116]

/-- ASCII for "boolean". -/
def booleanStr : List Nat := [98, 111, 111, 108, 101, 97, 110]

/-- ASCII for "string". -/
def stringStr : List Nat := [115, 116, 114, 105, 110, 103]

/-- ASCII for "[]", the array-type suffix. -/
def arraySuffix : List Nat := [91, 93]

/-- `stringToDataType` of `cparserlib.c`: the twenty known datatype names,
anything else decodes to `UNKNOWN` (reported but not fatal). -/
def stringToDataType (datatype : List Nat) : nodeDatatypes_t :=
  if datatype = int8Str then .INT8
  else if datatype = uint8Str then .UINT8
  else if datatype = int16Str then .INT16
  else if datatype = uint16Str then .UINT16
  else if datatype = int32Str then .INT32
  else if datatype = uint32Str then .UINT32
  else if datatype = doubleStr then .DOUBLE
  else if datatype = floatStr then .FLOAT
  else if datatype = booleanStr then .BOOLEAN
  else if datatype = stringStr then .STRING
  else if datatype = int8Str ++ arraySuffix then .INT8ARRAY
  else if datatype = uint8Str ++ arraySuffix then .UINT8ARRAY
  else if datatype = int16Str ++ arraySuffix then .INT16ARRAY
  else if datatype = uint16Str ++ arraySuffix then .UINT16ARRAY
  else if datatype = int32Str ++ arraySuffix then .INT32ARRAY
  else if datatype = uint32Str ++ arraySuffix then .UINT32ARRAY
  else if datatype = doubleStr ++ arraySuffix then .DOUBLEARRAY
  else if datatype = floatStr ++ arraySuffix then .FLOATARRAY
  else if datatype = booleanStr ++ arraySuffix then .BOOLEANARRAY
  else if datatype = stringStr ++ arraySuffix then .STRINGARRAY
  else .UNKNOWN

/-- `dataTypeToString` of `cparserlib.c`; `UNKNOWN` serialises to the empty
string. -/
def dataTypeToString (datatype : nodeDatatypes_t) : List Nat :=
  match datatype with
  | .INT8 => int8Str
  | .UINT8 => uint8Str
  | .INT16 => int16Str
  | .UINT16 => uint16Str
  | .INT32 => int32Str
  | .UINT32 => uint32Str
  | .DOUBLE => doubleStr
  | .FLOAT => floatStr
  | .BOOLEAN => booleanStr
  | .STRING => stringStr
  | .INT8ARRAY => int8Str ++ arraySuffix
  | .UINT8ARRAY => uint8Str ++ arraySuffix
  | .INT16ARRAY => int16Str ++ arraySuffix
  | .UINT16ARRAY => uint16Str ++ arraySuffix
  | .INT32ARRAY => int32Str ++ arraySuffix
  | .UINT32ARRAY => uint32Str ++ arraySuffix
  | .DOUBLEARRAY => doubleStr ++ arraySuffix
  | .FLOATARRAY => floatStr ++ arraySuffix
  | .BOOLEANARRAY => booleanStr ++ arraySuffix
  | .STRINGARRAY => stringStr ++ arraySuffix
  | .UNKNOWN => []

/-- ASCII for "write-only". -/
def writeOnlyStr : List Nat := [119, 114, 105, 116, 101, 45, 111, 110, 108, 121]

/-- ASCII for "read-write". -/
def readWriteStr : List Nat := [114, 101, 97, 100, 45, 119, 114, 105, 116, 101]

/-- `validateToUint8` of `cparserlib.c`: exact match against "write-only"
(level 1) and "read-write" (level 2); every other string yields 0. -/
def validateToUint8 (validate : List Nat) : Nat :=
  if validate = writeOnlyStr then 1
  else if validate = readWriteStr then 2
  else 0

/-- `validateToString` of `cparserlib.c`: levels 1 and 2 have names, every
other level serialises to the empty string. -/
def validateToString (validate : Nat) : List Nat :=
  if validate = 1 then writeOnlyStr
  else if validate = 2 then readWriteStr
  else []

/-- `hexToInt` of `cparserlib.c`: a hex digit byte to its value
(`'0'..'9'` are 48..57, `'A'..'F'` are 65..70). -/
def hexToInt (hexDigitByte : Nat) : Nat :=
  if hexDigitByte ≤ 57 then hexDigitByte - 48 else hexDigitByte - 65 + 10

/-- `hexDigit` of `cparserlib.c`: value 0..15 to an uppercase hex digit
byte. -/
def hexDigit (value : Nat) : Nat :=
  if value < 10 then value + 48 else value - 10 + 65

/-- `intToHex` of `cparserlib.c`, restricted to its defined domain 0..255:
the two-byte uppercase-hex rendering (high digit first).  For values above
255 the C function returns NULL and the caller passes NULL to `fwrite`;
the codec never does this for well-formed nodes. -/
def intToHex (intVal : Nat) : List Nat :=
  [hexDigit (intVal / 16), hexDigit (intVal % 16)]

/-- Value of the two leading hex-digit bytes of a block, as read by
`countEnumElements` and `extractEnumElement`
(`hexToInt(hexLen[0]) * 16 + hexToInt(hexLen[1])`). -/
def hexPairVal (s : List Nat) : Nat :=
  hexToInt (s.getD 0 0) * 16 + hexToInt (s.getD 1 0)

/-- Fueled body of `countEnumElements` of `cparserlib.c`: scan the packed
block, hopping `enumLen + 2` bytes per element.  Each step consumes at
least two bytes, so fuel equal to the block length is sufficient. -/
def countEnumElementsF : Nat → List Nat → Nat
  | 0, _ => 0
  | fuel + 1, s =>
    if s.length = 0 then 0
    else 1 + countEnumElementsF fuel (s.drop (hexPairVal s + 2))

/-- `countEnumElements` of `cparserlib.c`. -/
def countEnumElements (enumStr : List Nat) : Nat :=
  countEnumElementsF enumStr.length enumStr

/-- `extractEnumElement` of `cparserlib.c`: skip `elemIndex` elements, then
copy out the element under the cursor (its two-hex-digit length prefix
removed).  Structural recursion on the element index replaces the C
cursor loop. -/
def extractEnumElement (enumBuf : List Nat) (elemIndex : Nat) : List Nat :=
  match elemIndex with
  | 0 => (enumBuf.drop 2).take (hexPairVal enumBuf)
  | i + 1 => extractEnumElement (enumBuf.drop (hexPairVal enumBuf + 2)) i

/-- `calculatEnumStrLen` of `cparserlib.c`: total packed size of the
allowed/enum list, two prefix bytes plus the content per element. -/
def calculatEnumStrLen (enumDef : List (List Nat)) : Nat :=
  enumDef.foldl (fun strLen e => strLen + (e.length + 2)) 0

/-- `enumWrite` of `cparserlib.c`: one packed element, two-hex-digit length
prefix followed by the bytes. -/
def enumWrite (theEnum : List Nat) : List Nat :=
  intToHex theEnum.length ++ theEnum

/-- `writeNode` of `cparserlib.c`: serialise one node's fields in wire
order.  Length prefixes are single bytes (`fwrite(&len, sizeof(uint8_t))`);
for the `uint16_t` struct members `nameLen` and `descrLen` this writes only
the low-order byte, hence the `% 256`, while the content `fwrite` uses the
full member value and writes the whole string. -/
def writeNode (node : node_t) : List Nat :=
  let nodeType := nodeTypeToString node.type
  let dataType := dataTypeToString node.datatype
  let validate := validateToString node.validate
  let enumBlock :=
    if node.enumDef.length > 0 then
      [calculatEnumStrLen node.enumDef % 256] ++ node.enumDef.flatMap enumWrite
    else [0]
  [node.name.length % 256] ++ node.name ++
  [nodeType.length % 256] ++ nodeType ++
  [node.uuid.length % 256] ++ node.uuid ++
  [node.description.length % 256] ++ node.description ++
  [dataType.length % 256] ++ dataType ++
  [node.min.length % 256] ++ node.min ++
  [node.max.length % 256] ++ node.max ++
  [node.unit.length % 256] ++ node.unit ++
  enumBlock ++
  [node.defaultEnum.length % 256] ++ node.defaultEnum ++
  [validate.length % 256] ++ validate ++
  [node.child.length % 256]

/-- One `fread(&len, sizeof(uint8_t), 1, treeFp)`: a single byte from the
stream, 0 at end of stream (see the modelling conventions). -/
def freadU8 (s : List Nat) : Nat × List Nat :=
  match s with
  | [] => (0, [])
  | b :: rest => (b, rest)

/-- One `fread(buf, sizeof(char)*len, 1, treeFp)`: `len` bytes from the
stream, or the available prefix at end of stream. -/
def freadBytes (len : Nat) (s : List Nat) : List Nat × List Nat :=
  (s.take len, s.drop len)

/-- The per-node fields read by `populateNode`, before the children are
recursively attached by `traverseAndReadNode`. -/
structure PopulatedFields where
  name : List Nat
  type : nodeTypes_t
  uuid : List Nat
  description : List Nat
  datatype : nodeDatatypes_t
  min : List Nat
  max : List Nat
  unit : List Nat
  enumDef : List (List Nat)
  defaultEnum : List Nat
  validate : Nat
  children : Nat

/-- One length-prefixed field read of `populateNode`:
`fread(&len, sizeof(uint8_t))` followed by `fread(buf, len)`. -/
def readLenPrefixedField (s : List Nat) : List Nat × List Nat :=
  let (len, s1) := freadU8 s
  freadBytes len s1

/-- One optional length-prefixed field read of `populateNode`: the content
`fread` is guarded by `if (len > 0)`, and a skipped field keeps its
empty/zero model value (in C the member is left unassigned). -/
def readOptionalField (s : List Nat) : List Nat × List Nat :=
  let (len, s1) := freadU8 s
  if len > 0 then freadBytes len s1 else ([], s1)

/-- `populateNode` of `cparserlib.c`: read one node's fields from the
stream in wire order; each line is one `fread(&len)` / `fread(content)`
pair of the C function.  The decodes guarded by `if (len > 0)` in C
(datatype, enum block, validate) are modelled by testing the returned
content, which agrees with testing the length byte except beyond the end
of the stream, where the C buffer contents are indeterminate anyway (see
the modelling conventions). -/
def populateNode (s0 : List Nat) : PopulatedFields × List Nat :=
  let (name, s1) := readLenPrefixedField s0
  let (typeStr, s2) := readLenPrefixedField s1
  let type := stringToNodeType typeStr
  let (uuid, s3) := readLenPrefixedField s2
  let (description, s4) := readLenPrefixedField s3
  let (dataTypeStr, s5) := readOptionalField s4
  let datatype :=
    if dataTypeStr.length > 0 then stringToDataType dataTypeStr
    else nodeDatatypes_t.UNKNOWN
  let (min, s6) := readOptionalField s5
  let (max, s7) := readOptionalField s6
  let (unit, s8) := readOptionalField s7
  let (enumStr, s9) := readOptionalField s8
  let enumDef :=
    if enumStr.length > 0 then
      (List.range (countEnumElements enumStr)).map (extractEnumElement enumStr)
    else []
  let (defaultEnum, s10) := readOptionalField s9
  let (validateStr, s11) := readOptionalField s10
  let validate :=
    if validateStr.length > 0 then validateToUint8 validateStr else 0
  let (children, s12) := freadU8 s11
  ({ name := name, type := type, uuid := uuid, description := description,
     datatype := datatype, min := min, max := max, unit := unit,
     enumDef := enumDef, defaultEnum := defaultEnum, validate := validate,
     children := children }, s12)

/-- Assemble a `node_t` from populated fields and recursively read
children. -/
def PopulatedFields.toNode (f : PopulatedFields) (child : List node_t) : node_t :=
  .mk f.name f.type f.uuid f.description f.datatype f.min f.max f.unit
    f.enumDef f.defaultEnum f.validate child

/-- The `for (childNo = 0; childNo < thisNode->children; childNo++)` loop of
`traverseAndReadNode`, reading `count` children in order with the supplied
node reader. -/
def readChildren (readNode : List Nat → node_t × List Nat) :
    Nat → List Nat → List node_t × List Nat
  | 0, s => ([], s)
  | count + 1, s =>
    let (c, s') := readNode s
    let (cs, s'') := readChildren readNode count s'
    (c :: cs, s'')

/-- Fueled `traverseAndReadNode` of `cparserlib.c`: read this node's
fields, then recursively read `children` children.  With fuel 0 (never
reached from `VSSReadTree`, whose fuel exceeds any possible recursion
depth) the stream is left untouched and an empty node returned. -/
def traverseAndReadNode : Nat → List Nat → node_t × List Nat
  | 0, s => (.mk [] .UNKNOWN [] [] .UNKNOWN [] [] [] [] [] 0 [], s)
  | fuel + 1, s =>
    let (f, s1) := populateNode s
    let (cs, s2) := readChildren (traverseAndReadNode fuel) f.children s1
    (f.toNode cs, s2)

mutual
/-- Number of nodes of a tree; used as the fuel bound of the tree-recursive
functions (it strictly exceeds the depth of the tree). -/
def treeSize : node_t → Nat
  | .mk _ _ _ _ _ _ _ _ _ _ _ cs => 1 + treeSizeList cs
/-- Sum of `treeSize` over a list of subtrees. -/
def treeSizeList : List node_t → Nat
  | [] => 0
  | c :: cs => treeSize c + treeSizeList cs
end

/-- Fueled `traverseAndWriteNode` of `cparserlib.c`: pre-order, the node's
own fields first, then the children in order. -/
def traverseAndWriteNode : Nat → node_t → List Nat
  | 0, _ => []
  | fuel + 1, node =>
    writeNode node ++ node.child.flatMap (traverseAndWriteNode fuel)

/-- `VSSWriteTree` of `cparserlib.c`, with the file replaced by the
returned byte list.  `treeSize` of the root strictly exceeds the recursion
depth, so the fuel never runs out. -/
def VSSWriteTree (rootHandle : node_t) : List Nat :=
  traverseAndWriteNode (treeSize rootHandle) rootHandle

/-- `VSSReadTree` of `cparserlib.c`.  `none` models the NULL file handle
(`fopen` failure), the only error path the C function has: a `some` input
always produces a tree.  One fuel unit is consumed per node and
`populateNode` consumes at least one byte whenever the stream is nonempty,
so `length + 1` fuel never runs out. -/
def VSSReadTree (file : Option (List Nat)) : Option node_t :=
  match file with
  | none => none
  | some s => some (traverseAndReadNode (s.length + 1) s).1

/-- `VSSgetNumOfChildren` of `cparserlib.c`: the node's child count. -/
def VSSgetNumOfChildren (nodeHandle : node_t) : Nat :=
  nodeHandle.child.length

/-- `VSSgetChild` of `cparserlib.c`: the child under an index, guarded by
`if (VSSgetNumOfChildren(nodeHandle) > childNo)`; an out-of-range index
yields the NULL handle 0, modelled as `none`. -/
def VSSgetChild (nodeHandle : node_t) (childNo : Nat) : Option node_t :=
  if h : VSSgetNumOfChildren nodeHandle > childNo then
    some (nodeHandle.child.get ⟨childNo, h⟩)
  else none

/-- `VSSgetType` of `cparserlib.c`. -/
def VSSgetType (nodeHandle : node_t) : nodeTypes_t := nodeHandle.type

/-- `VSSgetName` of `cparserlib.c`. -/
def VSSgetName (nodeHandle : node_t) : List Nat := nodeHandle.name

/-- `VSSgetUUID` of `cparserlib.c`. -/
def VSSgetUUID (nodeHandle : node_t) : List Nat := nodeHandle.uuid

/-- `VSSgetValidation` of `cparserlib.c`. -/
def VSSgetValidation (nodeHandle : node_t) : Nat := nodeHandle.validate

/-- The output mode of a search, modelling the global flags
`isGetLeafNodeList` and `isGetUuidList` of `cparserlib.c` (set by the
entry points `VSSSearchNodes`, `VSSGetLeafNodesList`, `VSSGetUuidList`). -/
inductive OutputMode where
  | COLLECT
  | LEAFLIST
  | UUIDLIST
deriving DecidableEq, Repr

/-- `struct SearchContext_t` of `cparserlib.c`.  `searchData` holds the
`(responsePaths, foundNodeHandles)` pairs written so far: the C code keeps
an array plus the cursor `numOfMatches`, writing at the cursor and
retracting by decrementing it, which on the observable prefix is exactly
push-back and drop-last on a list.  `speculativeMatches` is the counter
array indexed by `speculationIndex` (only ever dereferenced under a
`speculationIndex >= 0` guard).  `listFp` is the byte sink of the
list-writing output modes. -/
structure SearchContext_t where
  searchPath : List Nat
  maxFound : Nat
  leafNodesOnly : Bool
  maxDepth : Nat
  matchPath : List Nat
  currentDepth : Nat
  speculationIndex : Int
  speculativeMatches : Int → Nat
  maxValidation : Nat
  numOfMatches : Nat
  searchData : List (List Nat × node_t)
  noScopeList : List (List Nat)
  outputMode : OutputMode
  listFp : List Nat

/-- ASCII code of the path separator, the dot. -/
def dotByte : Nat := 46

/-- ASCII code of the wildcard, the star. -/
def starByte : Nat := 42

/-- The one-character wildcard segment. -/
def starSegment : List Nat := [starByte]

/-- Split a search path on the dots, the segment view used to model the
`strchr`-cursor arithmetic of `getPathSegment` and `countSegments`: a path
with `k` dots has exactly `k + 1` segments. -/
def splitPath : List Nat → List (List Nat)
  | [] => [[]]
  | b :: rest =>
    match splitPath rest with
    | [] => [[]]
    | seg :: segs =>
      if b = dotByte then [] :: seg :: segs else (b :: seg) :: segs

/-- `pushPathSegment` of `cparserlib.c`: append a dot (at nonzero depth)
and the node name to the accumulated match path. -/
def pushPathSegment (name : List Nat) (context : SearchContext_t) : SearchContext_t :=
  { context with
    matchPath :=
      if context.currentDepth > 0 then context.matchPath ++ [dotByte] ++ name
      else context.matchPath ++ name }

/-- Index (from the end) of the last dot of a path, the `strrchr` of
`popPathSegment`; `none` when the path has no dot. -/
def lastDotIndex : List Nat → Option Nat
  | [] => none
  | b :: rest =>
    match lastDotIndex rest with
    | some i => some (i + 1)
    | none => if b = dotByte then some 0 else none

/-- `popPathSegment` of `cparserlib.c`: truncate the match path at its last
dot, or clear it entirely when it has none. -/
def popPathSegment (context : SearchContext_t) : SearchContext_t :=
  { context with
    matchPath :=
      match lastDotIndex context.matchPath with
      | none => []
      | some i => context.matchPath.take i }

/-- `incDepth` of `cparserlib.c`: push the node name onto the match path,
then step the depth. -/
def incDepth (thisNode : node_t) (context : SearchContext_t) : SearchContext_t :=
  let context := pushPathSegment (VSSgetName thisNode) context
  { context with currentDepth := context.currentDepth + 1 }

/-- `getPathSegment` of `cparserlib.c`: the search-path segment in focus at
`currentDepth + offset`.  The C cursor loop advances
`currentDepth + offset - 1` dots from the front and copies up to the next
dot, which is segment number `currentDepth + offset - 1` (0-based; the
loop runs no advances when that number is 0 or negative, so natural
subtraction is exact).  When the path has too few segments the C `strchr`
returns NULL and the tail rule applies: a path whose last byte is `*`
keeps yielding `*` while `currentDepth < maxDepth`, and otherwise the
segment is empty. -/
def getPathSegment (offset : Nat) (context : SearchContext_t) : List Nat :=
  let segs := splitPath context.searchPath
  let idx := context.currentDepth + offset - 1
  if idx < segs.length then segs.getD idx []
  else if context.searchPath.getLastD 0 = starByte ∧
      context.currentDepth < context.maxDepth then starSegment
  else []

/-- `countSegments` of `cparserlib.c`: 0 for the empty path, otherwise one
more than the number of dots, the dot-walk loop capping at 100 dots. -/
def countSegments (path : List Nat) : Nat :=
  if path.length = 0 then 0 else Nat.min (path.count dotByte) 100 + 1

/-- `compareNodeName` of `cparserlib.c`: literal equality, or the path
segment being the wildcard. -/
def compareNodeName (nodeName : List Nat) (pathName : List Nat) : Bool :=
  nodeName = pathName ∨ pathName = starSegment

/-- `isEndOfScope` of `cparserlib.c`: the accumulated match path equals an
entry of the no-scope list (the C `listSize == 0` early exit coincides
with the empty list). -/
def isEndOfScope (context : SearchContext_t) : Bool :=
  context.noScopeList.any (fun noScopePath => context.matchPath = noScopePath)

/-- ASCII of the leaf-list item serialisation in `saveMatchingNode`:
`"` for the first match. -/
def lnlFirstOpen : List Nat := [34]

/-- ASCII of `, "` for subsequent leaf-list matches. -/
def lnlNextOpen : List Nat := [44, 32, 34]

/-- ASCII of the uuid-list item opener for the first match (brace,
quote). -/
def uuidFirstOpen : List Nat := [123, 34]

/-- ASCII of the uuid-list item opener for subsequent matches (comma,
space, brace, quote). -/
def uuidNextOpen : List Nat := [44, 32, 123, 34]

/-- ASCII of `", "` between path and uuid in a uuid-list item. -/
def uuidMid : List Nat := [34, 44, 32, 34]

/-- ASCII of the uuid-list item closer (quote, brace). -/
def uuidClose : List Nat := [34, 125]

/-- `saveMatchingNode` of `cparserlib.c`, called only on nodes whose name
matched the segment in focus.  In order: bump the speculation index when
the focus segment is the wildcard; fold the node's validation into
`maxValidation`; record the match (to `searchData` or the list file,
depending on the output mode) unless the node is a BRANCH and
`leafNodesOnly` is set, bumping `numOfMatches` and the speculative counter;
compute `done`; and return 1 exactly when the speculation index is active
and this position can confirm a speculation (leaf at full pattern depth, or
maximum depth reached). -/
def saveMatchingNode (thisNode : node_t) (context : SearchContext_t) :
    Nat × Bool × SearchContext_t :=
  let context :=
    if getPathSegment 0 context = starSegment then
      { context with speculationIndex := context.speculationIndex + 1 }
    else context
  let context :=
    if VSSgetValidation thisNode > context.maxValidation then
      { context with maxValidation := VSSgetValidation thisNode }
    else context
  let context :=
    if VSSgetType thisNode ≠ .BRANCH ∨ context.leafNodesOnly = false then
      let context :=
        match context.outputMode with
        | .COLLECT =>
          { context with
            searchData := context.searchData ++ [(context.matchPath, thisNode)] }
        | .LEAFLIST =>
          { context with
            listFp := context.listFp ++
              (if context.numOfMatches = 0 then lnlFirstOpen else lnlNextOpen) ++
              context.matchPath ++ [34] }
        | .UUIDLIST =>
          { context with
            listFp := context.listFp ++
              (if context.numOfMatches = 0 then uuidFirstOpen else uuidNextOpen) ++
              context.matchPath ++ uuidMid ++ VSSgetUUID thisNode ++ uuidClose }
      let context := { context with numOfMatches := context.numOfMatches + 1 }
      if context.speculationIndex ≥ 0 then
        { context with
          speculativeMatches := fun i =>
            if i = context.speculationIndex then
              context.speculativeMatches i + 1
            else context.speculativeMatches i }
      else context
    else context
  let done :=
    VSSgetNumOfChildren thisNode = 0 ∨
    context.currentDepth = context.maxDepth ∨
    isEndOfScope context = true
  let ret :=
    if context.speculationIndex ≥ 0 ∧
        ((VSSgetNumOfChildren thisNode = 0 ∧
          context.currentDepth ≥ countSegments context.searchPath) ∨
         context.currentDepth = context.maxDepth) then 1 else 0
  (ret, done, context)

/-- `decDepth` of `cparserlib.c`: when a speculation level is active with a
positive speculative counter and the subtree confirmed nothing, retract the
most recent saved match (`numOfMatches--`, modelled on the observable
prefix by dropping the last `searchData` entry; bytes already written to
the list file are not unwritten); drop the speculation level when the focus
segment is the wildcard; pop the match path and step the depth back. -/
def decDepth (speculationSucceded : Nat) (context : SearchContext_t) : SearchContext_t :=
  let context :=
    if context.speculationIndex ≥ 0 ∧
        context.speculativeMatches context.speculationIndex > 0 ∧
        speculationSucceded = 0 then
      { context with
        numOfMatches := context.numOfMatches - 1,
        searchData := context.searchData.dropLast,
        speculativeMatches := fun i =>
          if i = context.speculationIndex then
            context.speculativeMatches i - 1
          else context.speculativeMatches i }
    else context
  let context :=
    if getPathSegment 0 context = starSegment then
      { context with speculationIndex := context.speculationIndex - 1 }
    else context
  let context := popPathSegment context
  { context with currentDepth := context.currentDepth - 1 }

/-- Fueled `traverseNode` of `cparserlib.c`: enter the node, and when its
name matches the segment in focus, save it and (unless done) recurse into
the children whose names match the next segment, summing the confirmation
counts; always leave through `decDepth` with the accumulated count.  One
fuel unit per tree level; the entry points pass `treeSize`, which strictly
exceeds the depth. -/
def traverseNode : Nat → node_t → SearchContext_t → Nat × SearchContext_t
  | 0, _, context => (0, context)
  | fuel + 1, thisNode, context =>
    let context := incDepth thisNode context
    if compareNodeName (VSSgetName thisNode) (getPathSegment 0 context) then
      let (ret, done, context) := saveMatchingNode thisNode context
      let (speculationSucceded, context) :=
        if done = false then
          let childPathName := getPathSegment 1 context
          thisNode.child.foldl
            (fun acc c =>
              if compareNodeName (VSSgetName c) childPathName then
                let (r, context') := traverseNode fuel c acc.2
                (acc.1 + r, context')
              else acc)
            (ret, context)
        else (ret, context)
      let context := decDepth speculationSucceded context
      (speculationSucceded, context)
    else
      let context := decDepth 0 context
      (0, context)

/-- `initContext` / `initContext_LNL` of `cparserlib.c` (they differ only
in which output sink they set up, here captured by `outputMode`): a fresh
context with `maxDepth` from `anyDepth` (100, the any-depth bound) or the
segment count of the search path, the no-scope list when `listSize > 0`,
and cleared accumulators (`speculationIndex` starts at -1). -/
def initContext (searchPath : List Nat) (maxFound : Nat) (anyDepth : Bool)
    (leafNodesOnly : Bool) (noScopeList : List (List Nat))
    (outputMode : OutputMode) : SearchContext_t :=
  { searchPath := searchPath
    maxFound := maxFound
    leafNodesOnly := leafNodesOnly
    maxDepth := if anyDepth then 100 else countSegments searchPath
    matchPath := []
    currentDepth := 0
    speculationIndex := -1
    speculativeMatches := fun _ => 0
    maxValidation := 0
    numOfMatches := 0
    searchData := []
    noScopeList := noScopeList
    outputMode := outputMode
    listFp := [] }

/-- Result of `VSSSearchNodes`: the returned match count, the filled
`searchData` array, and the `*validation` out-parameter. -/
structure SearchResult where
  numOfMatches : Nat
  searchData : List (List Nat × node_t)
  validation : Nat

/-- `VSSSearchNodes` of `cparserlib.c`: clear the list-mode globals, init a
context and traverse from the root. -/
def VSSSearchNodes (searchPath : List Nat) (rootNode : node_t) (maxFound : Nat)
    (anyDepth : Bool) (leafNodesOnly : Bool)
    (noScopeList : List (List Nat)) : SearchResult :=
  let context := initContext searchPath maxFound anyDepth leafNodesOnly
    noScopeList .COLLECT
  let (_, context) := traverseNode (treeSize rootNode) rootNode context
  { numOfMatches := context.numOfMatches
    searchData := context.searchData
    validation := context.maxValidation }

/-- ASCII of the hard-coded search path "Vehicle.*" of
`VSSGetLeafNodesList` and `VSSGetUuidList`. -/
def vehicleStarPath : List Nat := [86, 101, 104, 105, 99, 108, 101, 46, 42]

/-- ASCII of the leaf-list file header written by `VSSGetLeafNodesList`
(brace, quote, leafpaths, quote, colon, bracket). -/
def leafpathsHeader : List Nat :=
  [123, 34, 108, 101, 97, 102, 112, 97, 116, 104, 115, 34, 58, 91]

/-- ASCII of the list file footer (closing bracket and brace). -/
def listFooter : List Nat := [93, 125]

/-- `VSSGetLeafNodesList` of `cparserlib.c`: open the list file, write the
header, search from the root with the hard-coded path "Vehicle.*",
`anyDepth = true` and `leafNodesOnly = true` in leaf-list output mode,
write the footer, and return the match count.  The result is the count
paired with the bytes written to the file. -/
def VSSGetLeafNodesList (rootNode : node_t) : Nat × List Nat :=
  let context := initContext vehicleStarPath 0 true true [] .LEAFLIST
  let (_, context) := traverseNode (treeSize rootNode) rootNode context
  (context.numOfMatches, leafpathsHeader ++ context.listFp ++ listFooter)

/-- `VSSGetUuidList` of `cparserlib.c`: like the leaf list but in uuid
output mode, with the leafuuids header. -/
def VSSGetUuidList (rootNode : node_t) : Nat × List Nat :=
  let context := initContext vehicleStarPath 0 true true [] .UUIDLIST
  let (_, context) := traverseNode (treeSize rootNode) rootNode context
  (context.numOfMatches,
   [123, 34, 108, 101, 97, 102, 117, 117, 105, 100, 115, 34, 58, 91] ++
     context.listFp ++ listFooter)

/-- The inline validation fold of `saveMatchingNode` (`cparserlib.c`:
`if (VSSgetValidation(thisNode) > context->maxValidation)
context->maxValidation = VSSgetValidation(thisNode)`).  The header declares
a matrix-based `getMaxValidation`, but no definition of it exists in the
sources; this inline maximum is the aggregation the search actually
performs. -/
def maxValidationUpdate (newValidation currentMaxValidation : Nat) : Nat :=
  if newValidation > currentMaxValidation then newValidation
  else currentMaxValidation

/-- Well-formed tree of this format generation: every length that the
codec serialises through a single-byte prefix fits in a byte, the node
type is one of the four the generation can name on the wire, the
validation level is one this generation's strings can express, and the
children satisfy the same conditions recursively.  These are the data
model invariants of the binary format (counts and length prefixes are
bytes). -/
inductive wfNode : node_t → Prop where
  | mk (name : List Nat) (type : nodeTypes_t) (uuid description : List Nat)
      (datatype : nodeDatatypes_t) (min max unit : List Nat)
      (enumDef : List (List Nat)) (defaultEnum : List Nat) (validate : Nat)
      (child : List node_t) :
      name.length ≤ 255 →
      type ∈ ([.SENSOR, .ACTUATOR, .ATTRIBUTE, .BRANCH] : List nodeTypes_t) →
      uuid.length ≤ 255 →
      description.length ≤ 255 →
      min.length ≤ 255 →
      max.length ≤ 255 →
      unit.length ≤ 255 →
      calculatEnumStrLen enumDef ≤ 255 →
      (∀ e ∈ enumDef, e.length ≤ 255) →
      defaultEnum.length ≤ 255 →
      validate ≤ 2 →
      child.length ≤ 255 →
      (∀ c ∈ child, wfNode c) →
      wfNode (.mk name type uuid description datatype min max unit enumDef
        defaultEnum validate child)

/-- Trees whose node kinds all come from the set this format generation
can decode (`stringToNodeType` only ever produces these four, besides
`UNKNOWN` for unrecognised names). -/
inductive kindsOfGeneration : node_t → Prop where
  | mk (name : List Nat) (type : nodeTypes_t) (uuid description : List Nat)
      (datatype : nodeDatatypes_t) (min max unit : List Nat)
      (enumDef : List (List Nat)) (defaultEnum : List Nat) (validate : Nat)
      (child : List node_t) :
      type ∈ ([.SENSOR, .ACTUATOR, .ATTRIBUTE, .BRANCH] : List nodeTypes_t) →
      (∀ c ∈ child, kindsOfGeneration c) →
      kindsOfGeneration (.mk name type uuid description datatype min max unit
        enumDef defaultEnum validate child)

/-- ASCII of the search pattern "A.*.X". -/
def pathAstarX : List Nat := [65, 46, 42, 46, 88]

/-- A sensor leaf with a given name and no other metadata. -/
def mkSensor (name : List Nat) : node_t :=
  .mk name .SENSOR [] [] .UNKNOWN [] [] [] [] [] 0 []

/-- A branch node with a given name and children. -/
def mkBranch (name : List Nat) (child : List node_t) : node_t :=
  .mk name .BRANCH [] [] .UNKNOWN [] [] [] [] [] 0 child

/-- The tree `A.B.{C,D}` of the first wildcard scenario: branch A over
branch B over sensors C and D (no node named X). -/
def treeABCD : node_t :=
  mkBranch [65] [mkBranch [66] [mkSensor [67], mkSensor [68]]]

/-- The tree `A.{B1,B2}.X` of the second wildcard scenario, in the order
the scenario names the siblings: branch A over branch B1 (with sensor
child X) and branch B2 (without one). -/
def treeAB1B2 : node_t :=
  mkBranch [65]
    [mkBranch [66, 49] [mkSensor [88]], mkBranch [66, 50] []]

/-- The same tree with the siblings swapped: B2 before B1. -/
def treeAB2B1 : node_t :=
  mkBranch [65]
    [mkBranch [66, 50] [], mkBranch [66, 49] [mkSensor [88]]]

/-- The scenario tree `Vehicle{Speed(Sensor), Cabin{Door(Actuator)}}`. -/
def vehicleTree : node_t :=
  mkBranch [86, 101, 104, 105, 99, 108, 101]
    [mkSensor [83, 112, 101, 101, 100],
     mkBranch [67, 97, 98, 105, 110]
       [.mk [68, 111, 111, 114] .ACTUATOR [] [] .UNKNOWN [] [] [] [] [] 0 []]]

/-- A tree whose root is named A (not Vehicle) with a single sensor leaf
B. -/
def treeRootA : node_t := mkBranch [65] [mkSensor [66]]

/-- A node that declares one child; `writeNode` of it is a stream that
ends before the declared child can be read. -/
def truncatedStream : List Nat := writeNode treeRootA

/-- The node a read at end of stream produces under the modelling
conventions (every length byte reads as 0). -/
def endOfStreamNode : node_t :=
  .mk [] .UNKNOWN [] [] .UNKNOWN [] [] [] [] [] 0 []

/-- A sensor node whose description is 256 bytes long (256 times `a`),
exercising the description length prefix above one byte. -/
def descrNode256 : node_t :=
  .mk [65] .SENSOR [] (List.replicate 256 97) .STRING [] [] [] [] [] 0 []

/-- A small two-level tree with every codec field populated, used as the
concrete round-trip witness: root branch R over a fully populated sensor
S (uuid, description, datatype, min, max, unit, a three-element allowed
list, default, validation 2) and a plain sensor Q. -/
def roundTripTree : node_t :=
  mkBranch [82]
    [.mk [83] .SENSOR [85, 85] [100, 101, 115, 99] .INT16 [48] [57, 57]
       [107, 109] [[97], [98, 98], [99, 99, 99]] [97] 2 [],
     mkSensor [81]]

/-- The packed-list view of the allowed/enum codec: `writeNode` packs the
elements with `enumWrite` (`for` loop over `enumDef`). -/
def packEnumList (enumDef : List (List Nat)) : List Nat :=
  enumDef.flatMap enumWrite

/-- The unpacking loop of `populateNode`: count the elements of a packed
block with `countEnumElements`, then extract each with
`extractEnumElement` (the `for (i = 0; i < thisNode->enums; i++)` loop). -/
def unpackEnumList (enumStr : List Nat) : List (List Nat) :=
  (List.range (countEnumElements enumStr)).map (extractEnumElement enumStr)

/-- ASCII of "write-only+consent", a validation string this generation
does not recognise. -/
def writeOnlyConsentStr : List Nat :=
  writeOnlyStr ++ [43, 99, 111, 110, 115, 101, 110, 116]

/-- The example allowed list `["a", "bb", "ccc"]` as byte lists. -/
def exampleAllowedList : List (List Nat) := [[97], [98, 98], [99, 99, 99]]

theorem take_append_len (a b : List Nat) : (a ++ b).take a.length = a := by
  induction a with
  | nil => simp
  | cons x xs ih => simp [ih]

theorem drop_append_len (a b : List Nat) : (a ++ b).drop a.length = b := by
  induction a with
  | nil => simp
  | cons x xs ih => simp [ih]

theorem hexToInt_hexDigit : ∀ v < 16, hexToInt (hexDigit v) = v := by decide

theorem hexPairVal_intToHex (v : Nat) (h : v ≤ 255) (rest : List Nat) :
    hexPairVal (intToHex v ++ rest) = v := by
  have hdiv : v / 16 < 16 := by omega
  have hmod : v % 16 < 16 := Nat.mod_lt _ (by omega)
  simp only [intToHex, hexPairVal, List.cons_append, List.getD_cons_zero,
    List.getD_cons_succ]
  rw [hexToInt_hexDigit _ hdiv, hexToInt_hexDigit _ hmod]
  omega

/-- C7: decoding a validation string is permissive — "write-only" decodes
to level 1, "read-write" to level 2, and every other string (including
ones with a trailing "+consent") decodes to level 0 rather than to an
error; `validateToUint8` is total. -/
theorem c7_validate_permissive :
    validateToUint8 writeOnlyStr = 1 ∧
    validateToUint8 readWriteStr = 2 ∧
    ∀ s : List Nat, s ≠ writeOnlyStr → s ≠ readWriteStr →
      validateToUint8 s = 0 := by
  refine ⟨by decide, by decide, ?_⟩
  intro s h1 h2
  simp [validateToUint8, h1, h2]

/-- C7 witness: the unrecognised string "write-only+consent" decodes to
level 0. -/
theorem c7_validate_permissive_witness :
    validateToUint8 writeOnlyConsentStr = 0 :=
  c7_validate_permissive.2.2 writeOnlyConsentStr (by decide) (by decide)

set_option maxHeartbeats 2000000 in
/-- C9: the validation aggregation of the search combines levels with the
inline maximum of `saveMatchingNode`, an operation that is symmetric and
idempotent on all levels; combining 1 with 12 yields 12 and 0 with 0
yields 0; and `saveMatchingNode` folds the visited node's validation into
the context with exactly this operation. -/
theorem c9_validation_aggregation :
    (∀ a b, maxValidationUpdate a b = maxValidationUpdate b a) ∧
    (∀ a, maxValidationUpdate a a = a) ∧
    maxValidationUpdate 1 12 = 12 ∧
    maxValidationUpdate 0 0 = 0 ∧
    ∀ (n : node_t) (context : SearchContext_t),
      ((saveMatchingNode n context).2.2).maxValidation =
        maxValidationUpdate (VSSgetValidation n) context.maxValidation := by
  refine ⟨?_, ?_, by decide, by decide, ?_⟩
  · intro a b
    simp only [maxValidationUpdate]
    split <;> split <;> omega
  · intro a
    simp [maxValidationUpdate]
  · intro n context
    obtain ⟨sp, mf, lno, md, mp, cd, si, sm, mv, nm, sd, nsl, om, lfp⟩ := context
    cases om <;>
      simp only [saveMatchingNode, maxValidationUpdate] <;>
      (repeat' split) <;> rfl

/-- C10: the child accessor is guarded — an index below the child count
yields that child, and any index at or above the child count yields the
NULL handle (`none`); no access outside the child list is performed. -/
theorem c10_child_guard :
    (∀ (n : node_t) (i : Nat) (h : i < VSSgetNumOfChildren n),
      VSSgetChild n i = some (n.child.get ⟨i, h⟩)) ∧
    (∀ (n : node_t) (i : Nat), VSSgetNumOfChildren n ≤ i →
      VSSgetChild n i = none) := by
  constructor
  · intro n i h
    simp [VSSgetChild, h]
  · intro n i h
    simp [VSSgetChild]
    omega

/-- C10 witness: on the scenario tree, child 0 is the Speed leaf and child
2 is out of range. -/
theorem c10_child_guard_witness :
    VSSgetChild vehicleTree 0 =
      some (vehicleTree.child.get ⟨0, by decide⟩) ∧
    VSSgetChild vehicleTree 2 = none :=
  ⟨c10_child_guard.1 vehicleTree 0 (by decide),
   c10_child_guard.2 vehicleTree 2 (by decide)⟩

theorem calculatEnumStrLen_shift (l : List (List Nat)) :
    ∀ a : Nat, l.foldl (fun strLen e => strLen + (e.length + 2)) a =
      a + l.foldl (fun strLen e => strLen + (e.length + 2)) 0 := by
  induction l with
  | nil => intro a; simp
  | cons e l ih =>
    intro a
    simp only [List.foldl_cons]
    rw [ih (a + (e.length + 2)), ih (0 + (e.length + 2))]
    omega

theorem calculatEnumStrLen_cons (e : List Nat) (l : List (List Nat)) :
    calculatEnumStrLen (e :: l) = e.length + 2 + calculatEnumStrLen l := by
  simp only [calculatEnumStrLen, List.foldl_cons]
  rw [calculatEnumStrLen_shift]
  omega

theorem packEnumList_length (l : List (List Nat)) :
    (packEnumList l).length = calculatEnumStrLen l := by
  induction l with
  | nil => simp [packEnumList, calculatEnumStrLen]
  | cons e l ih =>
    simp only [packEnumList, List.flatMap_cons] at *
    rw [calculatEnumStrLen_cons]
    simp [enumWrite, intToHex, ih]
    try omega

theorem packEnumList_cons_assoc (e : List Nat) (l : List (List Nat)) :
    packEnumList (e :: l) = (intToHex e.length ++ e) ++ packEnumList l := by
  simp [packEnumList, enumWrite]

theorem drop_packed_head (e : List Nat) (r : List Nat) :
    ((intToHex e.length ++ e) ++ r).drop (e.length + 2) = r := by
  have hlen : (intToHex e.length ++ e).length = e.length + 2 := by
    simp [intToHex]
  rw [← hlen, drop_append_len]

theorem countEnumElementsF_pack (fuel : Nat) (l : List (List Nat))
    (hfuel : (packEnumList l).length ≤ fuel)
    (hlen : ∀ e ∈ l, e.length ≤ 255) :
    countEnumElementsF fuel (packEnumList l) = l.length := by
  induction l generalizing fuel with
  | nil => cases fuel <;> simp [packEnumList, countEnumElementsF]
  | cons e l ih =>
    have hel : e.length ≤ 255 := hlen e (by simp)
    have hpos : 0 < (packEnumList (e :: l)).length := by
      rw [packEnumList_cons_assoc]
      simp [intToHex]
    cases fuel with
    | zero => omega
    | succ fuel =>
      have hne : (packEnumList (e :: l)).length ≠ 0 := by omega
      rw [countEnumElementsF, if_neg hne]
      rw [packEnumList_cons_assoc]
      have hval : hexPairVal ((intToHex e.length ++ e) ++ packEnumList l) =
          e.length := by
        rw [List.append_assoc]
        exact hexPairVal_intToHex e.length hel (e ++ packEnumList l)
      rw [hval, drop_packed_head]
      have : (packEnumList l).length ≤ fuel := by
        rw [packEnumList_cons_assoc] at hfuel
        simp [intToHex] at hfuel
        omega
      rw [ih fuel this (fun a ha => hlen a (by simp [ha]))]
      simp only [List.length_cons]
      omega

theorem extractEnumElement_pack (l : List (List Nat)) :
    ∀ i, i < l.length → (∀ e ∈ l, e.length ≤ 255) →
      extractEnumElement (packEnumList l) i = l.getD i [] := by
  induction l with
  | nil => intro i hi; simp at hi
  | cons e l ih =>
    intro i hi hlen
    have hel : e.length ≤ 255 := hlen e (by simp)
    have hval : hexPairVal (packEnumList (e :: l)) = e.length := by
      rw [packEnumList_cons_assoc, List.append_assoc]
      exact hexPairVal_intToHex e.length hel (e ++ packEnumList l)
    cases i with
    | zero =>
      rw [extractEnumElement, hval, packEnumList_cons_assoc]
      have h2 : (intToHex e.length).length = 2 := by simp [intToHex]
      rw [List.append_assoc, ← h2, drop_append_len, take_append_len]
      simp
    | succ i =>
      rw [extractEnumElement, hval, packEnumList_cons_assoc, drop_packed_head]
      rw [ih i (by simp at hi; omega) (fun a ha => hlen a (by simp [ha]))]
      simp

theorem unpackEnumList_packEnumList (l : List (List Nat))
    (hlen : ∀ e ∈ l, e.length ≤ 255) :
    unpackEnumList (packEnumList l) = l := by
  have hcount : countEnumElements (packEnumList l) = l.length :=
    countEnumElementsF_pack (packEnumList l).length l (le_refl _) hlen
  apply List.ext_getElem
  · simp [unpackEnumList, hcount]
  · intro i h1 h2
    simp only [unpackEnumList, hcount, List.getElem_map, List.getElem_range]
    rw [extractEnumElement_pack l i h2 hlen]
    exact List.getD_eq_getElem l [] h2

theorem hexDigit_range : ∀ v < 16, (48 ≤ hexDigit v ∧ hexDigit v ≤ 57) ∨
    (65 ≤ hexDigit v ∧ hexDigit v ≤ 70) := by decide

/-- C3: each packed allowed/enum element is prefixed by its length as a
two-character uppercase ASCII hex pair (digits 0..9 and A..F, encoding an
integer 0..255, inverted by the hex scan of the unpacker); for every list
of strings of length at most 255 each, unpacking the packed block returns
the original list; and the empty list packs to a block of declared length
0 (`calculatEnumStrLen` 0, so `writeNode` writes a 0 length byte). -/
theorem c3_allowed_packing :
    (∀ v, v ≤ 255 →
      (intToHex v).length = 2 ∧
      (∀ d ∈ intToHex v, (48 ≤ d ∧ d ≤ 57) ∨ (65 ≤ d ∧ d ≤ 70)) ∧
      ∀ rest, hexPairVal (intToHex v ++ rest) = v) ∧
    (∀ enumDef : List (List Nat), (∀ e ∈ enumDef, e.length ≤ 255) →
      unpackEnumList (packEnumList enumDef) = enumDef) ∧
    packEnumList [] = [] ∧ calculatEnumStrLen [] = 0 := by
  refine ⟨?_, unpackEnumList_packEnumList, by decide, by decide⟩
  intro v hv
  refine ⟨by simp [intToHex], ?_, fun rest => hexPairVal_intToHex v hv rest⟩
  intro d hd
  simp only [intToHex, List.mem_cons, List.not_mem_nil, or_false] at hd
  rcases hd with h | h
  · exact h ▸ hexDigit_range (v / 16) (by omega)
  · exact h ▸ hexDigit_range (v % 16) (Nat.mod_lt _ (by omega))

/-- C3 witness: packing then unpacking the example list ["a", "bb", "ccc"]
returns it unchanged, and the length prefix of a 171-byte element is "AB".
-/
theorem c3_allowed_packing_witness :
    unpackEnumList (packEnumList exampleAllowedList) = exampleAllowedList ∧
    (∀ d ∈ intToHex 171, (48 ≤ d ∧ d ≤ 57) ∨ (65 ≤ d ∧ d ≤ 70)) :=
  ⟨c3_allowed_packing.2.1 exampleAllowedList (by decide),
   (c3_allowed_packing.1 171 (by decide)).2.1⟩

set_option maxRecDepth 16384

/-- C2 (code evaluation): on the first scenario tree `A.B.{C,D}` the
search for `A.*.X` (leaf-only, depth from the pattern) finds 0 matches as
the claim states; but on the second scenario tree `A.{B1,B2}.X`, with the
siblings in the order the scenario names them, the same search also
returns 0 matches instead of the claimed single match `A.B1.X` — B2's
failed speculation retracts the match already confirmed under B1, because
`speculativeMatches` keeps B1's counter when the wildcard level is
re-entered.  Swapping the sibling order (B2 before B1) yields the claimed
single match, isolating the stale-counter defect. -/
theorem c2_code_evaluation :
    (VSSSearchNodes pathAstarX treeABCD 150 false true []).numOfMatches = 0 ∧
    (VSSSearchNodes pathAstarX treeAB1B2 150 false true []).numOfMatches = 0 ∧
    (VSSSearchNodes pathAstarX treeAB2B1 150 false true []).numOfMatches = 1 ∧
    (VSSSearchNodes pathAstarX treeAB2B1 150 false true []).searchData.map
      Prod.fst = [[65, 46, 66, 49, 46, 88]] := by decide

/-- C4 counterexample: `truncatedStream` is the serialisation of a single
node that declares one child, with no bytes following — a stream that
ends before the declared `childCount` children can be read.  The claim
says reading it is a fatal decode error and no partial tree is returned;
instead `VSSReadTree` returns (a handle to) a tree whose missing child is
populated from nothing. -/
theorem c4_counterexample :
    (populateNode truncatedStream).1.children = 1 ∧
    (populateNode truncatedStream).2 = [] ∧
    VSSReadTree (some truncatedStream) =
      some (node_t.mk [65] .BRANCH [] [] .UNKNOWN [] [] [] [] [] 0
        [endOfStreamNode]) ∧
    VSSReadTree (some truncatedStream) ≠ none := by
  refine ⟨rfl, rfl, rfl, ?_⟩
  simp [VSSReadTree]

/-- C4 amended: the reader has no truncation detection at all — a byte
stream always yields a tree (`fread` results are discarded and reads past
the end of the stream produce empty/zero fields), and the NULL return of
`VSSReadTree` happens only when the file cannot be opened. -/
theorem c4_amended :
    (∀ s : List Nat, (VSSReadTree (some s)).isSome = true) ∧
    VSSReadTree none = none :=
  ⟨fun _ => rfl, rfl⟩

/-- C5 (code evaluation): a 256-byte description does not round-trip.
`writeNode` emits only the low byte of the `uint16_t` `descrLen` member
(`fwrite(&descrLen, sizeof(uint8_t), ...)`), so the 256-byte description
is written with length byte 0 while all 256 content bytes still follow,
and `populateNode` (which also reads a single byte into `descrLen`) reads
back an empty description and desynchronises on the content bytes.  The
12-byte prefix shows the wire bytes: name, type, empty uuid, description
length byte 0, then the first description content byte 97. -/
theorem c5_code_evaluation :
    descrNode256.description = List.replicate 256 97 ∧
    (VSSReadTree (some (VSSWriteTree descrNode256))).map node_t.description =
      some [] ∧
    (VSSWriteTree descrNode256).take 12 =
      [1, 65, 6, 115, 101, 110, 115, 111, 114, 0, 0, 97] := by
  exact ⟨rfl, rfl, rfl⟩

/-- C8 counterexample: on a tree whose root is named A rather than
Vehicle, the leaf-list operation returns 0 while a search with pattern `*`
(any depth, leaf-only) finds the leaf — so the leaf-list operation does
not perform the claimed pattern-`*` search (it hard-codes "Vehicle.*"). -/
theorem c8_counterexample :
    (VSSGetLeafNodesList treeRootA).1 = 0 ∧
    (VSSSearchNodes starSegment treeRootA 0 true true []).numOfMatches = 1 ∧
    (VSSGetLeafNodesList treeRootA).1 ≠
      (VSSSearchNodes starSegment treeRootA 0 true true []).numOfMatches := by
  decide

theorem stringToNodeType_nodeTypeToString (type : nodeTypes_t)
    (h : type ∈ ([.SENSOR, .ACTUATOR, .ATTRIBUTE, .BRANCH] : List nodeTypes_t)) :
    stringToNodeType (nodeTypeToString type) = type := by
  fin_cases h <;> decide

theorem nodeTypeToString_length (type : nodeTypes_t) :
    (nodeTypeToString type).length ≤ 255 := by
  cases type <;> decide

theorem flatMap_enumWrite (l : List (List Nat)) :
    l.flatMap enumWrite = packEnumList l := rfl

theorem readLenPrefixedField_spec (a b : List Nat) (h : a.length ≤ 255) :
    readLenPrefixedField (a.length % 256 :: (a ++ b)) = (a, b) := by
  have e : a.length % 256 = a.length := Nat.mod_eq_of_lt (by omega)
  simp only [readLenPrefixedField, freadU8, freadBytes, e]
  exact congrArg₂ Prod.mk (take_append_len a b) (drop_append_len a b)

theorem readOptionalField_spec (a b : List Nat) (h : a.length ≤ 255) :
    readOptionalField (a.length % 256 :: (a ++ b)) = (a, b) := by
  have e : a.length % 256 = a.length := Nat.mod_eq_of_lt (by omega)
  cases a with
  | nil => simp [readOptionalField, freadU8]
  | cons x xs =>
    simp only [readOptionalField, freadU8, freadBytes, e]
    rw [if_pos (by simp)]
    exact congrArg₂ Prod.mk (take_append_len (x :: xs) b)
      (drop_append_len (x :: xs) b)

theorem decode_datatype_roundtrip (d : nodeDatatypes_t) :
    (if (dataTypeToString d).length > 0 then
      stringToDataType (dataTypeToString d)
     else nodeDatatypes_t.UNKNOWN) = d := by
  cases d <;> decide

theorem decode_validate_roundtrip (v : Nat) (h : v ≤ 2) :
    (if (validateToString v).length > 0 then
      validateToUint8 (validateToString v)
     else 0) = v := by
  interval_cases v <;> decide

theorem decode_enum_roundtrip (l : List (List Nat))
    (hel : ∀ e ∈ l, e.length ≤ 255) :
    (if (packEnumList l).length > 0 then
      (List.range (countEnumElements (packEnumList l))).map
        (extractEnumElement (packEnumList l))
     else []) = l := by
  cases l with
  | nil => simp [packEnumList]
  | cons e l' =>
    have hpos : 0 < (packEnumList (e :: l')).length := by
      rw [packEnumList_cons_assoc]
      simp [intToHex]
    rw [if_pos hpos]
    have h := unpackEnumList_packEnumList (e :: l') hel
    simpa only [unpackEnumList] using h

theorem writeEnumBlock_eq (l : List (List Nat)) (tail : List Nat) :
    ((if l.length > 0 then calculatEnumStrLen l % 256 :: packEnumList l
      else [0]) ++ tail) =
    (packEnumList l).length % 256 :: (packEnumList l ++ tail) := by
  cases l with
  | nil => simp [packEnumList]
  | cons e l' =>
    rw [if_pos (by simp), packEnumList_length]
    simp

theorem dataTypeToString_length (d : nodeDatatypes_t) :
    (dataTypeToString d).length ≤ 255 := by
  cases d <;> decide

theorem validateToString_length (v : Nat) :
    (validateToString v).length ≤ 255 := by
  simp only [validateToString]
  split
  · decide
  · split
    · decide
    · simp

set_option maxHeartbeats 2000000 in
theorem populateNode_writeNode
    (name : List Nat) (type : nodeTypes_t) (uuid descr : List Nat)
    (datatype : nodeDatatypes_t) (minv maxv unitv : List Nat)
    (enumDef : List (List Nat)) (defaultEnum : List Nat) (validate : Nat)
    (child : List node_t) (rest : List Nat)
    (hname : name.length ≤ 255)
    (htype : type ∈ ([.SENSOR, .ACTUATOR, .ATTRIBUTE, .BRANCH] : List nodeTypes_t))
    (huuid : uuid.length ≤ 255) (hdescr : descr.length ≤ 255)
    (hmin : minv.length ≤ 255) (hmax : maxv.length ≤ 255)
    (hunit : unitv.length ≤ 255)
    (henum : calculatEnumStrLen enumDef ≤ 255)
    (henumel : ∀ e ∈ enumDef, e.length ≤ 255)
    (hdefault : defaultEnum.length ≤ 255) (hvalidate : validate ≤ 2)
    (hchild : child.length ≤ 255) :
    populateNode (writeNode (.mk name type uuid descr datatype minv maxv
        unitv enumDef defaultEnum validate child) ++ rest) =
      ({ name := name, type := type, uuid := uuid, description := descr,
         datatype := datatype, min := minv, max := maxv, unit := unitv,
         enumDef := enumDef, defaultEnum := defaultEnum, validate := validate,
         children := child.length }, rest) := by
  have echild : child.length % 256 = child.length := Nat.mod_eq_of_lt (by omega)
  have hts := stringToNodeType_nodeTypeToString type htype
  have htl := nodeTypeToString_length type
  have hdl := dataTypeToString_length datatype
  have hvl := validateToString_length validate
  have hpl : (packEnumList enumDef).length ≤ 255 := by
    rw [packEnumList_length]; exact henum
  simp only [writeNode, node_t.name, node_t.type, node_t.uuid,
    node_t.description, node_t.datatype, node_t.min, node_t.max, node_t.unit,
    node_t.enumDef, node_t.defaultEnum, node_t.validate, node_t.child,
    flatMap_enumWrite, List.append_assoc, List.cons_append, List.nil_append,
    List.singleton_append]
  rw [populateNode, writeEnumBlock_eq]
  simp only [readLenPrefixedField_spec, readOptionalField_spec, freadU8,
    hname, htype, huuid, hdescr, hmin, hmax, hunit, hdefault, htl, hdl, hvl,
    hpl, hts, echild, decode_datatype_roundtrip,
    decode_validate_roundtrip validate hvalidate,
    decode_enum_roundtrip enumDef henumel]

theorem treeSize_pos (n : node_t) : 1 ≤ treeSize n := by
  cases n
  rw [treeSize]
  omega

theorem treeSizeList_le {c : node_t} :
    ∀ {cs : List node_t}, c ∈ cs → treeSize c ≤ treeSizeList cs := by
  intro cs h
  induction cs with
  | nil => simp at h
  | cons x xs ih =>
    rw [treeSizeList]
    rcases List.mem_cons.mp h with rfl | hmem
    · omega
    · have := ih hmem
      omega

theorem flatMap_congr_nodes (cs : List node_t) (f g : node_t → List Nat)
    (h : ∀ c ∈ cs, f c = g c) : cs.flatMap f = cs.flatMap g := by
  induction cs with
  | nil => rfl
  | cons x xs ih =>
    simp only [List.flatMap_cons]
    rw [h x (by simp), ih (fun c hc => h c (by simp [hc]))]

theorem traverseAndWriteNode_fuel :
    ∀ (f g : Nat) (n : node_t), treeSize n ≤ f → treeSize n ≤ g →
      traverseAndWriteNode f n = traverseAndWriteNode g n := by
  intro f
  induction f with
  | zero =>
    intro g n hf _
    have := treeSize_pos n
    omega
  | succ f ih =>
    intro g n hf hg
    have h1 := treeSize_pos n
    cases g with
    | zero => omega
    | succ g =>
      cases n with
      | mk name type uuid descr dt mi ma un ed de va cs =>
        rw [traverseAndWriteNode, traverseAndWriteNode]
        have hsz : treeSize (.mk name type uuid descr dt mi ma un ed de va cs) =
            1 + treeSizeList cs := by rw [treeSize]
        refine congrArg _ ?_
        simp only [node_t.child]
        apply flatMap_congr_nodes
        intro c hc
        have hc1 : treeSize c ≤ treeSizeList cs := treeSizeList_le hc
        exact ih g c (by omega) (by omega)

theorem VSSWriteTree_unfold (n : node_t) :
    VSSWriteTree n = writeNode n ++ n.child.flatMap VSSWriteTree := by
  cases n with
  | mk name type uuid descr dt mi ma un ed de va cs =>
    rw [VSSWriteTree]
    have hsz : treeSize (.mk name type uuid descr dt mi ma un ed de va cs) =
        treeSizeList cs + 1 := by rw [treeSize]; omega
    rw [hsz, traverseAndWriteNode]
    refine congrArg _ ?_
    simp only [node_t.child]
    apply flatMap_congr_nodes
    intro c hc
    have hc1 : treeSize c ≤ treeSizeList cs := treeSizeList_le hc
    exact traverseAndWriteNode_fuel (treeSizeList cs) (treeSize c) c
      (by omega) (le_refl _)

theorem writeNode_length_pos (n : node_t) : 1 ≤ (writeNode n).length := by
  rw [writeNode]
  simp only [List.length_append, List.length_cons]
  omega

theorem length_le_flatMap {c : node_t} :
    ∀ {cs : List node_t}, c ∈ cs →
      (VSSWriteTree c).length ≤ (cs.flatMap VSSWriteTree).length := by
  intro cs h
  induction cs with
  | nil => simp at h
  | cons x xs ih =>
    simp only [List.flatMap_cons, List.length_append]
    rcases List.mem_cons.mp h with rfl | hmem
    · omega
    · have := ih hmem
      omega

set_option maxHeartbeats 1600000 in
theorem traverseAndReadNode_VSSWriteTree :
    ∀ (fuel : Nat) (n : node_t) (rest : List Nat), wfNode n →
      (VSSWriteTree n).length < fuel →
      traverseAndReadNode fuel (VSSWriteTree n ++ rest) = (n, rest) := by
  intro fuel
  induction fuel with
  | zero => intro n rest _ h; omega
  | succ fuel ih =>
    intro n rest hwf hlen
    have hchildren : ∀ (cs : List node_t) (rest2 : List Nat),
        (∀ c ∈ cs, wfNode c) → (∀ c ∈ cs, (VSSWriteTree c).length < fuel) →
        readChildren (traverseAndReadNode fuel) cs.length
          (cs.flatMap VSSWriteTree ++ rest2) = (cs, rest2) := by
      intro cs
      induction cs with
      | nil => intro rest2 _ _; simp [readChildren]
      | cons c cs' ihc =>
        intro rest2 hwfs hlens
        simp only [List.flatMap_cons, List.append_assoc, List.length_cons]
        rw [readChildren]
        simp only [ih c (cs'.flatMap VSSWriteTree ++ rest2) (hwfs c (by simp))
          (hlens c (by simp)),
          ihc rest2 (fun x hx => hwfs x (by simp [hx]))
            (fun x hx => hlens x (by simp [hx]))]
    cases hwf with
    | mk name type uuid descr datatype minv maxv unitv enumDef defaultE
        validate cs hname htype huuid hdescr hmin hmax hunit henum henumel
        hdefault hvalidate hchild hch =>
      rw [VSSWriteTree_unfold] at hlen ⊢
      simp only [node_t.child] at hlen ⊢
      rw [List.append_assoc, traverseAndReadNode]
      rw [populateNode_writeNode name type uuid descr datatype minv maxv unitv
        enumDef defaultE validate cs _ hname htype huuid hdescr hmin hmax
        hunit henum henumel hdefault hvalidate hchild]
      have hbound : ∀ c ∈ cs, (VSSWriteTree c).length < fuel := by
        intro c hc
        have h1 := writeNode_length_pos
          (node_t.mk name type uuid descr datatype minv maxv unitv enumDef
            defaultE validate cs)
        have h2 := length_le_flatMap (c := c) hc
        simp only [List.length_append] at hlen
        omega
      dsimp only
      rw [hchildren cs rest hch hbound]
      rfl

/-- C1: the round trip — for every well-formed node tree (arbitrary
nesting, zero-child leaves, empty optional fields), writing the tree and
reading the resulting byte stream back yields the original tree
field-for-field.  Absent optional fields (empty strings, empty allowed
list, the UNKNOWN datatype, validation level 0) are encoded solely by a
zero length prefix, with no content bytes in the stream, and decode to
the same empty values. -/
theorem c1_roundtrip (n : node_t) (h : wfNode n) :
    VSSReadTree (some (VSSWriteTree n)) = some n := by
  have hmain := traverseAndReadNode_VSSWriteTree ((VSSWriteTree n).length + 1)
    n [] h (by omega)
  rw [List.append_nil] at hmain
  simp only [VSSReadTree, hmain]

theorem wfNode_leaf_aux :
    wfNode (node_t.mk [83] .SENSOR [85, 85] [100, 101, 115, 99] .INT16 [48]
      [57, 57] [107, 109] [[97], [98, 98], [99, 99, 99]] [97] 2 []) := by
  refine wfNode.mk _ _ _ _ _ _ _ _ _ _ _ _ (by decide) (by decide) (by decide)
    (by decide) (by decide) (by decide) (by decide) (by decide) (by decide)
    (by decide) (by decide) (by decide) ?_
  intro c hc
  simp at hc

theorem wfNode_roundTripTree : wfNode roundTripTree := by
  show wfNode (node_t.mk [82] .BRANCH [] [] .UNKNOWN [] [] [] [] [] 0
    [node_t.mk [83] .SENSOR [85, 85] [100, 101, 115, 99] .INT16 [48] [57, 57]
       [107, 109] [[97], [98, 98], [99, 99, 99]] [97] 2 [],
     node_t.mk [81] .SENSOR [] [] .UNKNOWN [] [] [] [] [] 0 []])
  refine wfNode.mk _ _ _ _ _ _ _ _ _ _ _ _ (by decide) (by decide) (by decide)
    (by decide) (by decide) (by decide) (by decide) (by decide) (by decide)
    (by decide) (by decide) (by decide) ?_
  intro c hc
  simp only [List.mem_cons, List.not_mem_nil, or_false] at hc
  rcases hc with rfl | rfl
  · exact wfNode_leaf_aux
  · refine wfNode.mk _ _ _ _ _ _ _ _ _ _ _ _ (by decide) (by decide)
      (by decide) (by decide) (by decide) (by decide) (by decide) (by decide)
      (by decide) (by decide) (by decide) (by decide) ?_
    intro c hc
    simp at hc

/-- C1 witness: the concrete two-level tree with every codec field
populated is well-formed and round-trips. -/
theorem c1_roundtrip_witness :
    wfNode roundTripTree ∧
    VSSReadTree (some (VSSWriteTree roundTripTree)) = some roundTripTree :=
  ⟨wfNode_roundTripTree, c1_roundtrip roundTripTree wfNode_roundTripTree⟩

@[simp] theorem iteCtx_searchPath (c : Prop) [Decidable c] (a b : SearchContext_t) :
    (if c then a else b).searchPath = if c then a.searchPath else b.searchPath :=
  apply_ite _ c a b

@[simp] theorem iteCtx_maxFound (c : Prop) [Decidable c] (a b : SearchContext_t) :
    (if c then a else b).maxFound = if c then a.maxFound else b.maxFound :=
  apply_ite _ c a b

@[simp] theorem iteCtx_leafNodesOnly (c : Prop) [Decidable c] (a b : SearchContext_t) :
    (if c then a else b).leafNodesOnly =
      if c then a.leafNodesOnly else b.leafNodesOnly :=
  apply_ite _ c a b

@[simp] theorem iteCtx_maxDepth (c : Prop) [Decidable c] (a b : SearchContext_t) :
    (if c then a else b).maxDepth = if c then a.maxDepth else b.maxDepth :=
  apply_ite _ c a b

@[simp] theorem iteCtx_matchPath (c : Prop) [Decidable c] (a b : SearchContext_t) :
    (if c then a else b).matchPath = if c then a.matchPath else b.matchPath :=
  apply_ite _ c a b

@[simp] theorem iteCtx_currentDepth (c : Prop) [Decidable c] (a b : SearchContext_t) :
    (if c then a else b).currentDepth =
      if c then a.currentDepth else b.currentDepth :=
  apply_ite _ c a b

@[simp] theorem iteCtx_speculationIndex (c : Prop) [Decidable c] (a b : SearchContext_t) :
    (if c then a else b).speculationIndex =
      if c then a.speculationIndex else b.speculationIndex :=
  apply_ite _ c a b

@[simp] theorem iteCtx_speculativeMatches (c : Prop) [Decidable c] (a b : SearchContext_t) :
    (if c then a else b).speculativeMatches =
      if c then a.speculativeMatches else b.speculativeMatches :=
  apply_ite _ c a b

@[simp] theorem iteCtx_maxValidation (c : Prop) [Decidable c] (a b : SearchContext_t) :
    (if c then a else b).maxValidation =
      if c then a.maxValidation else b.maxValidation :=
  apply_ite _ c a b

@[simp] theorem iteCtx_numOfMatches (c : Prop) [Decidable c] (a b : SearchContext_t) :
    (if c then a else b).numOfMatches =
      if c then a.numOfMatches else b.numOfMatches :=
  apply_ite _ c a b

@[simp] theorem iteCtx_searchData (c : Prop) [Decidable c] (a b : SearchContext_t) :
    (if c then a else b).searchData = if c then a.searchData else b.searchData :=
  apply_ite _ c a b

@[simp] theorem iteCtx_noScopeList (c : Prop) [Decidable c] (a b : SearchContext_t) :
    (if c then a else b).noScopeList =
      if c then a.noScopeList else b.noScopeList :=
  apply_ite _ c a b

@[simp] theorem iteCtx_outputMode (c : Prop) [Decidable c] (a b : SearchContext_t) :
    (if c then a else b).outputMode = if c then a.outputMode else b.outputMode :=
  apply_ite _ c a b

@[simp] theorem iteCtx_listFp (c : Prop) [Decidable c] (a b : SearchContext_t) :
    (if c then a else b).listFp = if c then a.listFp else b.listFp :=
  apply_ite _ c a b

/-- The speculation index after the first step of `saveMatchingNode`
(which bumps it when the segment in focus is the wildcard). -/
def specIndexAfterSave (context : SearchContext_t) : Int :=
  if getPathSegment 0 context = starSegment then context.speculationIndex + 1
  else context.speculationIndex

theorem save_unchanged (n : node_t) (ctx : SearchContext_t) :
    ((saveMatchingNode n ctx).2.2).searchPath = ctx.searchPath ∧
    ((saveMatchingNode n ctx).2.2).maxFound = ctx.maxFound ∧
    ((saveMatchingNode n ctx).2.2).leafNodesOnly = ctx.leafNodesOnly ∧
    ((saveMatchingNode n ctx).2.2).maxDepth = ctx.maxDepth ∧
    ((saveMatchingNode n ctx).2.2).matchPath = ctx.matchPath ∧
    ((saveMatchingNode n ctx).2.2).currentDepth = ctx.currentDepth ∧
    ((saveMatchingNode n ctx).2.2).noScopeList = ctx.noScopeList ∧
    ((saveMatchingNode n ctx).2.2).outputMode = ctx.outputMode := by
  obtain ⟨sp, mf, lno, md, mp, cd, si, sm, mv, nm, sd, nsl, om, lfp⟩ := ctx
  cases om <;> simp [saveMatchingNode]

theorem save_speculationIndex (n : node_t) (ctx : SearchContext_t) :
    ((saveMatchingNode n ctx).2.2).speculationIndex = specIndexAfterSave ctx := by
  obtain ⟨sp, mf, lno, md, mp, cd, si, sm, mv, nm, sd, nsl, om, lfp⟩ := ctx
  cases om <;> simp [saveMatchingNode, specIndexAfterSave]

theorem save_maxValidation (n : node_t) (ctx : SearchContext_t) :
    ((saveMatchingNode n ctx).2.2).maxValidation =
      maxValidationUpdate (VSSgetValidation n) ctx.maxValidation := by
  obtain ⟨sp, mf, lno, md, mp, cd, si, sm, mv, nm, sd, nsl, om, lfp⟩ := ctx
  cases om <;> simp [saveMatchingNode, maxValidationUpdate]

theorem save_numOfMatches (n : node_t) (ctx : SearchContext_t) :
    ((saveMatchingNode n ctx).2.2).numOfMatches =
      if VSSgetType n ≠ .BRANCH ∨ ctx.leafNodesOnly = false then
        ctx.numOfMatches + 1
      else ctx.numOfMatches := by
  obtain ⟨sp, mf, lno, md, mp, cd, si, sm, mv, nm, sd, nsl, om, lfp⟩ := ctx
  cases om <;> simp [saveMatchingNode]

theorem save_searchData (n : node_t) (ctx : SearchContext_t) :
    ((saveMatchingNode n ctx).2.2).searchData =
      if (VSSgetType n ≠ .BRANCH ∨ ctx.leafNodesOnly = false) ∧
          ctx.outputMode = .COLLECT then
        ctx.searchData ++ [(ctx.matchPath, n)]
      else ctx.searchData := by
  obtain ⟨sp, mf, lno, md, mp, cd, si, sm, mv, nm, sd, nsl, om, lfp⟩ := ctx
  cases om <;> simp [saveMatchingNode]

theorem save_speculativeMatches (n : node_t) (ctx : SearchContext_t) :
    ((saveMatchingNode n ctx).2.2).speculativeMatches =
      if (VSSgetType n ≠ .BRANCH ∨ ctx.leafNodesOnly = false) ∧
          0 ≤ specIndexAfterSave ctx then
        fun i =>
          if i = specIndexAfterSave ctx then ctx.speculativeMatches i + 1
          else ctx.speculativeMatches i
      else ctx.speculativeMatches := by
  obtain ⟨sp, mf, lno, md, mp, cd, si, sm, mv, nm, sd, nsl, om, lfp⟩ := ctx
  cases om <;> simp [saveMatchingNode, specIndexAfterSave] <;>
    (repeat' split) <;> simp_all

theorem save_ret (n : node_t) (ctx : SearchContext_t) :
    (saveMatchingNode n ctx).1 =
      if 0 ≤ specIndexAfterSave ctx ∧
          ((VSSgetNumOfChildren n = 0 ∧
            countSegments ctx.searchPath ≤ ctx.currentDepth) ∨
           ctx.currentDepth = ctx.maxDepth) then 1 else 0 := by
  obtain ⟨sp, mf, lno, md, mp, cd, si, sm, mv, nm, sd, nsl, om, lfp⟩ := ctx
  cases om <;> simp [saveMatchingNode, specIndexAfterSave] <;>
    (repeat' split) <;> simp_all

theorem save_done (n : node_t) (ctx : SearchContext_t) :
    (saveMatchingNode n ctx).2.1 =
      decide (VSSgetNumOfChildren n = 0 ∨ ctx.currentDepth = ctx.maxDepth ∨
        isEndOfScope ctx = true) := by
  obtain ⟨sp, mf, lno, md, mp, cd, si, sm, mv, nm, sd, nsl, om, lfp⟩ := ctx
  cases om <;> simp [saveMatchingNode, isEndOfScope] <;>
    (repeat' split) <;> simp_all

theorem incDepth_spec (n : node_t) (ctx : SearchContext_t) :
    incDepth n ctx =
      { ctx with
        matchPath :=
          if ctx.currentDepth > 0 then ctx.matchPath ++ [dotByte] ++ VSSgetName n
          else ctx.matchPath ++ VSSgetName n,
        currentDepth := ctx.currentDepth + 1 } := by
  obtain ⟨sp, mf, lno, md, mp, cd, si, sm, mv, nm, sd, nsl, om, lfp⟩ := ctx
  simp [incDepth, pushPathSegment]

theorem decDepth_unchanged (k : Nat) (ctx : SearchContext_t) :
    (decDepth k ctx).searchPath = ctx.searchPath ∧
    (decDepth k ctx).maxFound = ctx.maxFound ∧
    (decDepth k ctx).leafNodesOnly = ctx.leafNodesOnly ∧
    (decDepth k ctx).maxDepth = ctx.maxDepth ∧
    (decDepth k ctx).noScopeList = ctx.noScopeList ∧
    (decDepth k ctx).outputMode = ctx.outputMode ∧
    (decDepth k ctx).listFp = ctx.listFp := by
  obtain ⟨sp, mf, lno, md, mp, cd, si, sm, mv, nm, sd, nsl, om, lfp⟩ := ctx
  simp [decDepth, popPathSegment]

theorem decDepth_currentDepth (k : Nat) (ctx : SearchContext_t) :
    (decDepth k ctx).currentDepth = ctx.currentDepth - 1 := by
  obtain ⟨sp, mf, lno, md, mp, cd, si, sm, mv, nm, sd, nsl, om, lfp⟩ := ctx
  simp [decDepth, popPathSegment]

theorem decDepth_matchPath (k : Nat) (ctx : SearchContext_t) :
    (decDepth k ctx).matchPath = (popPathSegment ctx).matchPath := by
  obtain ⟨sp, mf, lno, md, mp, cd, si, sm, mv, nm, sd, nsl, om, lfp⟩ := ctx
  simp only [decDepth, popPathSegment]
  (repeat' split) <;> simp_all

theorem decDepth_numOfMatches (k : Nat) (ctx : SearchContext_t) :
    (decDepth k ctx).numOfMatches =
      if 0 ≤ ctx.speculationIndex ∧
          0 < ctx.speculativeMatches ctx.speculationIndex ∧ k = 0 then
        ctx.numOfMatches - 1
      else ctx.numOfMatches := by
  obtain ⟨sp, mf, lno, md, mp, cd, si, sm, mv, nm, sd, nsl, om, lfp⟩ := ctx
  simp [decDepth, popPathSegment]

theorem decDepth_searchData (k : Nat) (ctx : SearchContext_t) :
    (decDepth k ctx).searchData =
      if 0 ≤ ctx.speculationIndex ∧
          0 < ctx.speculativeMatches ctx.speculationIndex ∧ k = 0 then
        ctx.searchData.dropLast
      else ctx.searchData := by
  obtain ⟨sp, mf, lno, md, mp, cd, si, sm, mv, nm, sd, nsl, om, lfp⟩ := ctx
  simp [decDepth, popPathSegment]

theorem decDepth_speculativeMatches (k : Nat) (ctx : SearchContext_t) :
    (decDepth k ctx).speculativeMatches =
      if 0 ≤ ctx.speculationIndex ∧
          0 < ctx.speculativeMatches ctx.speculationIndex ∧ k = 0 then
        fun i =>
          if i = ctx.speculationIndex then ctx.speculativeMatches i - 1
          else ctx.speculativeMatches i
      else ctx.speculativeMatches := by
  obtain ⟨sp, mf, lno, md, mp, cd, si, sm, mv, nm, sd, nsl, om, lfp⟩ := ctx
  simp [decDepth, popPathSegment] <;> (repeat' split) <;> simp_all

theorem decDepth_speculationIndex (k : Nat) (ctx : SearchContext_t) :
    (decDepth k ctx).speculationIndex =
      if getPathSegment 0 ctx = starSegment then ctx.speculationIndex - 1
      else ctx.speculationIndex := by
  obtain ⟨sp, mf, lno, md, mp, cd, si, sm, mv, nm, sd, nsl, om, lfp⟩ := ctx
  simp [decDepth, popPathSegment, getPathSegment]

/-- The leaf kinds of this format generation. -/
def isLeafKindType (t : nodeTypes_t) : Prop :=
  t = .SENSOR ∨ t = .ACTUATOR ∨ t = .ATTRIBUTE

theorem kindsOfGeneration_type {n : node_t} (h : kindsOfGeneration n) :
    n.type ∈ ([.SENSOR, .ACTUATOR, .ATTRIBUTE, .BRANCH] : List nodeTypes_t) := by
  cases h with
  | mk name type uuid descr dt mi ma un ed de va cs htype hch => exact htype

theorem kindsOfGeneration_child {n : node_t} (h : kindsOfGeneration n) :
    ∀ c ∈ n.child, kindsOfGeneration c := by
  cases h with
  | mk name type uuid descr dt mi ma un ed de va cs htype hch => exact hch

theorem mem_of_mem_dropLast {α : Type} {e : α} :
    ∀ {l : List α}, e ∈ l.dropLast → e ∈ l := by
  intro l h
  induction l with
  | nil => simp at h
  | cons x xs ih =>
    cases xs with
    | nil => simp at h
    | cons y ys =>
      rw [List.dropLast_cons₂] at h
      rcases List.mem_cons.mp h with rfl | hmem
      · exact List.mem_cons_self _ _
      · exact List.mem_cons_of_mem _ (ih hmem)

theorem traverseNode_leafOnly_inv :
    ∀ (fuel : Nat) (n : node_t) (ctx : SearchContext_t),
      kindsOfGeneration n → ctx.leafNodesOnly = true →
      (∀ e ∈ ctx.searchData, isLeafKindType (VSSgetType e.2)) →
      ((traverseNode fuel n ctx).2.leafNodesOnly = true ∧
       ∀ e ∈ (traverseNode fuel n ctx).2.searchData,
         isLeafKindType (VSSgetType e.2)) := by
  intro fuel
  induction fuel with
  | zero =>
    intro n ctx _ h1 h2
    exact ⟨h1, h2⟩
  | succ fuel ih =>
    intro n ctx hk hleaf hentries
    have hdec : ∀ (k : Nat) (c : SearchContext_t), c.leafNodesOnly = true →
        (∀ e ∈ c.searchData, isLeafKindType (VSSgetType e.2)) →
        ((decDepth k c).leafNodesOnly = true ∧
         ∀ e ∈ (decDepth k c).searchData, isLeafKindType (VSSgetType e.2)) := by
      intro k c h1 h2
      refine ⟨((decDepth_unchanged k c).2.2.1).trans h1, ?_⟩
      intro e he
      rw [decDepth_searchData] at he
      split at he
      · exact h2 e (mem_of_mem_dropLast he)
      · exact h2 e he
    rw [traverseNode]
    set c1 := incDepth n ctx with hc1
    have hl1 : c1.leafNodesOnly = true := by
      rw [hc1, incDepth_spec]
      exact hleaf
    have he1 : ∀ e ∈ c1.searchData, isLeafKindType (VSSgetType e.2) := by
      rw [hc1, incDepth_spec]
      exact hentries
    by_cases hcmp :
        compareNodeName (VSSgetName n) (getPathSegment 0 c1) = true
    · rw [if_pos hcmp]
      rcases hsave : saveMatchingNode n c1 with ⟨ret, done, c2⟩
      have hl2 : c2.leafNodesOnly = true := by
        have h := (save_unchanged n c1).2.2.1
        rw [hsave] at h
        exact h.trans hl1
      have he2 : ∀ e ∈ c2.searchData, isLeafKindType (VSSgetType e.2) := by
        have h := save_searchData n c1
        rw [hsave] at h
        intro e he
        rw [h] at he
        split at he
        · rename_i hcond
          rcases List.mem_append.mp he with hmem | hmem
          · exact he1 e hmem
          · simp only [List.mem_singleton] at hmem
            subst hmem
            rcases hcond.1 with hnb | hno
            · have := kindsOfGeneration_type hk
              simp only [List.mem_cons, List.not_mem_nil, or_false] at this
              rcases this with h4 | h4 | h4 | h4 <;>
                simp [isLeafKindType, VSSgetType, h4] at hnb ⊢
            · rw [hl1] at hno
              exact absurd hno (by simp)
        · exact he1 e he
      have hfold : ∀ (cs : List node_t) (acc : Nat × SearchContext_t),
          (∀ c ∈ cs, kindsOfGeneration c) →
          acc.2.leafNodesOnly = true →
          (∀ e ∈ acc.2.searchData, isLeafKindType (VSSgetType e.2)) →
          ((cs.foldl
              (fun acc c =>
                if compareNodeName (VSSgetName c) (getPathSegment 1 c2) then
                  let (r, context') := traverseNode fuel c acc.2
                  (acc.1 + r, context')
                else acc) acc).2.leafNodesOnly = true ∧
           ∀ e ∈ (cs.foldl
              (fun acc c =>
                if compareNodeName (VSSgetName c) (getPathSegment 1 c2) then
                  let (r, context') := traverseNode fuel c acc.2
                  (acc.1 + r, context')
                else acc) acc).2.searchData, isLeafKindType (VSSgetType e.2)) := by
        intro cs
        induction cs with
        | nil => intro acc _ h1 h2; exact ⟨h1, h2⟩
        | cons c cs' ihc =>
          intro acc hkc h1 h2
          rw [List.foldl_cons]
          by_cases hc : compareNodeName (VSSgetName c) (getPathSegment 1 c2) = true
          · rw [if_pos hc]
            rcases hr : traverseNode fuel c acc.2 with ⟨r, cr⟩
            have hrec := ih c acc.2 (hkc c (by simp)) h1 h2
            rw [hr] at hrec
            exact ihc _ (fun x hx => hkc x (by simp [hx])) hrec.1 hrec.2
          · rw [if_neg hc]
            exact ihc acc (fun x hx => hkc x (by simp [hx])) h1 h2
      dsimp only
      by_cases hdone : done = false
      · rw [if_pos hdone]
        rcases hres : (n.child.foldl
            (fun acc c =>
              if compareNodeName (VSSgetName c) (getPathSegment 1 c2) then
                let (r, context') := traverseNode fuel c acc.2
                (acc.1 + r, context')
              else acc) (ret, c2)) with ⟨s3, c3⟩
        have hprops := hfold n.child (ret, c2) (kindsOfGeneration_child hk) hl2 he2
        rw [hres] at hprops
        rw [hres]
        exact hdec s3 c3 hprops.1 hprops.2
      · rw [if_neg hdone]
        exact hdec ret c2 hl2 he2
    · rw [if_neg hcmp]
      exact hdec 0 c1 hl1 he1

theorem kinds_vehicleTree : kindsOfGeneration vehicleTree := by
  show kindsOfGeneration (node_t.mk [86, 101, 104, 105, 99, 108, 101] .BRANCH
    [] [] .UNKNOWN [] [] [] [] [] 0
    [node_t.mk [83, 112, 101, 101, 100] .SENSOR [] [] .UNKNOWN [] [] [] [] [] 0 [],
     node_t.mk [67, 97, 98, 105, 110] .BRANCH [] [] .UNKNOWN [] [] [] [] [] 0
       [node_t.mk [68, 111, 111, 114] .ACTUATOR [] [] .UNKNOWN [] [] [] [] []
          0 []]])
  refine kindsOfGeneration.mk _ _ _ _ _ _ _ _ _ _ _ _ (by decide) ?_
  intro c hc
  simp only [List.mem_cons, List.not_mem_nil, or_false] at hc
  rcases hc with rfl | rfl
  · exact kindsOfGeneration.mk _ _ _ _ _ _ _ _ _ _ _ _ (by decide)
      (fun c hc => absurd hc (by simp))
  · refine kindsOfGeneration.mk _ _ _ _ _ _ _ _ _ _ _ _ (by decide) ?_
    intro c hc
    simp only [List.mem_cons, List.not_mem_nil, or_false] at hc
    subst hc
    exact kindsOfGeneration.mk _ _ _ _ _ _ _ _ _ _ _ _ (by decide)
      (fun c hc => absurd hc (by simp))

/-- C6: a visited node whose name matched the segment in focus is recorded
as a match exactly when it is not a BRANCH or the `leafNodesOnly` flag is
off (first group: `saveMatchingNode` bumps the match count if and only if
that condition holds, appends the `(path, handle)` pair in collect mode
when it does, and leaves both untouched for a branch under leaf-only);
consequently a search with pattern `*`, `anyDepth = true` and
`leafOnly = true` over any tree of this generation's kinds records only
leaf-kind nodes. -/
theorem c6_leaf_only_filter :
    (∀ (n : node_t) (ctx : SearchContext_t),
      (((saveMatchingNode n ctx).2.2).numOfMatches = ctx.numOfMatches + 1 ↔
        (VSSgetType n ≠ .BRANCH ∨ ctx.leafNodesOnly = false)) ∧
      ((VSSgetType n ≠ .BRANCH ∨ ctx.leafNodesOnly = false) →
        ctx.outputMode = .COLLECT →
        ((saveMatchingNode n ctx).2.2).searchData =
          ctx.searchData ++ [(ctx.matchPath, n)]) ∧
      (VSSgetType n = .BRANCH → ctx.leafNodesOnly = true →
        ((saveMatchingNode n ctx).2.2).numOfMatches = ctx.numOfMatches ∧
        ((saveMatchingNode n ctx).2.2).searchData = ctx.searchData)) ∧
    (∀ (root : node_t) (maxFound : Nat), kindsOfGeneration root →
      ∀ e ∈ (VSSSearchNodes starSegment root maxFound true true []).searchData,
        isLeafKindType (VSSgetType e.2)) := by
  constructor
  · intro n ctx
    refine ⟨?_, ?_, ?_⟩
    · rw [save_numOfMatches]
      by_cases h : VSSgetType n ≠ .BRANCH ∨ ctx.leafNodesOnly = false
      · rw [if_pos h]
        simp [h]
      · rw [if_neg h]
        simp [h]
    · intro h1 h2
      rw [save_searchData, if_pos ⟨h1, h2⟩]
    · intro h1 h2
      have hno : ¬(VSSgetType n ≠ .BRANCH ∨ ctx.leafNodesOnly = false) := by
        simp [h1, h2]
      rw [save_numOfMatches, save_searchData, if_neg hno,
        if_neg (fun hand => hno hand.1)]
      exact ⟨rfl, rfl⟩
  · intro root maxFound hk
    have hinv := traverseNode_leafOnly_inv (treeSize root) root
      (initContext starSegment maxFound true true [] .COLLECT) hk rfl
      (by simp [initContext])
    intro e he
    exact hinv.2 e he

/-- C6 witness: on the scenario tree (branches Vehicle and Cabin, leaves
Speed and Door), the leaf-only wildcard search records only leaf-kind
nodes. -/
theorem c6_leaf_only_filter_witness :
    ∀ e ∈ (VSSSearchNodes starSegment vehicleTree 150 true true
        []).searchData, isLeafKindType (VSSgetType e.2) :=
  c6_leaf_only_filter.2 vehicleTree 150 kinds_vehicleTree

/-- Agreement of two search contexts on every field the traversal control
flow and the match count read: everything except the output sinks
(`searchData` content is still compared where the collect mode fills it —
excluded here — plus `listFp`), the unused `maxFound`, and the output
mode selector. -/
def coreAgree (a b : SearchContext_t) : Prop :=
  a.searchPath = b.searchPath ∧ a.leafNodesOnly = b.leafNodesOnly ∧
  a.maxDepth = b.maxDepth ∧ a.matchPath = b.matchPath ∧
  a.currentDepth = b.currentDepth ∧ a.speculationIndex = b.speculationIndex ∧
  a.speculativeMatches = b.speculativeMatches ∧
  a.maxValidation = b.maxValidation ∧ a.numOfMatches = b.numOfMatches ∧
  a.noScopeList = b.noScopeList

theorem getPathSegment_fields (offset : Nat) (a b : SearchContext_t)
    (h1 : a.searchPath = b.searchPath) (h2 : a.currentDepth = b.currentDepth)
    (h3 : a.maxDepth = b.maxDepth) :
    getPathSegment offset a = getPathSegment offset b := by
  simp only [getPathSegment, h1, h2, h3]

theorem isEndOfScope_fields (a b : SearchContext_t)
    (h1 : a.matchPath = b.matchPath) (h2 : a.noScopeList = b.noScopeList) :
    isEndOfScope a = isEndOfScope b := by
  simp [isEndOfScope, h1, h2]

theorem specIndexAfterSave_congr (a b : SearchContext_t) (h : coreAgree a b) :
    specIndexAfterSave a = specIndexAfterSave b := by
  obtain ⟨h1, h2, h3, h4, h5, h6, h7, h8, h9, h10⟩ := h
  rw [specIndexAfterSave, specIndexAfterSave,
    getPathSegment_fields 0 a b h1 h5 h3, h6]

theorem incDepth_core (n : node_t) (a b : SearchContext_t)
    (h : coreAgree a b) : coreAgree (incDepth n a) (incDepth n b) := by
  obtain ⟨h1, h2, h3, h4, h5, h6, h7, h8, h9, h10⟩ := h
  rw [incDepth_spec, incDepth_spec]
  exact ⟨h1, h2, h3, by simp [h4, h5], by simp [h5], h6, h7, h8, h9, h10⟩

theorem save_core (n : node_t) (a b : SearchContext_t) (h : coreAgree a b) :
    (saveMatchingNode n a).1 = (saveMatchingNode n b).1 ∧
    (saveMatchingNode n a).2.1 = (saveMatchingNode n b).2.1 ∧
    coreAgree (saveMatchingNode n a).2.2 (saveMatchingNode n b).2.2 := by
  have hspec := specIndexAfterSave_congr a b h
  obtain ⟨h1, h2, h3, h4, h5, h6, h7, h8, h9, h10⟩ := h
  refine ⟨?_, ?_, ?_⟩
  · rw [save_ret, save_ret, hspec, h1, h5, h3]
  · rw [save_done, save_done, h5, h3, isEndOfScope_fields a b h4 h10]
  · refine ⟨?_, ?_, ?_, ?_, ?_, ?_, ?_, ?_, ?_, ?_⟩ <;>
      simp only [(save_unchanged n a).1, (save_unchanged n b).1,
        (save_unchanged n a).2.2.1, (save_unchanged n b).2.2.1,
        (save_unchanged n a).2.2.2.1, (save_unchanged n b).2.2.2.1,
        (save_unchanged n a).2.2.2.2.1, (save_unchanged n b).2.2.2.2.1,
        (save_unchanged n a).2.2.2.2.2.1, (save_unchanged n b).2.2.2.2.2.1,
        (save_unchanged n a).2.2.2.2.2.2.1, (save_unchanged n b).2.2.2.2.2.2.1,
        save_speculationIndex, save_speculativeMatches, save_maxValidation,
        save_numOfMatches, hspec, h1, h2, h3, h4, h5, h6, h7, h8, h9, h10]

theorem decDepth_maxValidation (k : Nat) (ctx : SearchContext_t) :
    (decDepth k ctx).maxValidation = ctx.maxValidation := by
  obtain ⟨sp, mf, lno, md, mp, cd, si, sm, mv, nm, sd, nsl, om, lfp⟩ := ctx
  simp [decDepth, popPathSegment]

theorem decDepth_core (k : Nat) (a b : SearchContext_t) (h : coreAgree a b) :
    coreAgree (decDepth k a) (decDepth k b) := by
  obtain ⟨h1, h2, h3, h4, h5, h6, h7, h8, h9, h10⟩ := h
  refine ⟨?_, ?_, ?_, ?_, ?_, ?_, ?_, ?_, ?_, ?_⟩
  all_goals try simp only [(decDepth_unchanged k a).1, (decDepth_unchanged k b).1,
    (decDepth_unchanged k a).2.2.1, (decDepth_unchanged k b).2.2.1,
    (decDepth_unchanged k a).2.2.2.1, (decDepth_unchanged k b).2.2.2.1,
    (decDepth_unchanged k a).2.2.2.2.1, (decDepth_unchanged k b).2.2.2.2.1,
    decDepth_currentDepth, decDepth_matchPath, decDepth_numOfMatches,
    decDepth_searchData, decDepth_speculativeMatches, decDepth_maxValidation,
    decDepth_speculationIndex, popPathSegment,
    getPathSegment_fields 0 a b h1 h5 h3,
    h1, h2, h3, h4, h5, h6, h7, h8, h9, h10]
  all_goals try rfl

set_option maxHeartbeats 3200000 in
theorem traverseNode_core :
    ∀ (fuel : Nat) (n : node_t) (a b : SearchContext_t), coreAgree a b →
      (traverseNode fuel n a).1 = (traverseNode fuel n b).1 ∧
      coreAgree (traverseNode fuel n a).2 (traverseNode fuel n b).2 := by
  intro fuel
  induction fuel with
  | zero => intro n a b h; exact ⟨rfl, h⟩
  | succ fuel ih =>
    intro n a b h
    rw [traverseNode, traverseNode]
    set c1a := incDepth n a with hc1a
    set c1b := incDepth n b with hc1b
    have hca : coreAgree c1a c1b := incDepth_core n a b h
    have hgps : getPathSegment 0 c1a = getPathSegment 0 c1b :=
      getPathSegment_fields 0 c1a c1b hca.1 hca.2.2.2.2.1 hca.2.2.1
    by_cases hcmp : compareNodeName (VSSgetName n) (getPathSegment 0 c1a) = true
    · rw [if_pos hcmp, if_pos (by rw [← hgps]; exact hcmp)]
      rcases hsa : saveMatchingNode n c1a with ⟨reta, donea, c2a⟩
      rcases hsb : saveMatchingNode n c1b with ⟨retb, doneb, c2b⟩
      have hsc := save_core n c1a c1b hca
      rw [hsa, hsb] at hsc
      obtain ⟨hret, hdone, hc2⟩ := hsc
      dsimp only at hret hdone ⊢
      subst hret
      subst hdone
      have hgps1 : getPathSegment 1 c2a = getPathSegment 1 c2b :=
        getPathSegment_fields 1 c2a c2b hc2.1 hc2.2.2.2.2.1 hc2.2.2.1
      have hfold : ∀ (cs : List node_t) (acca accb : Nat × SearchContext_t),
          acca.1 = accb.1 → coreAgree acca.2 accb.2 →
          ((cs.foldl
              (fun acc c =>
                if compareNodeName (VSSgetName c) (getPathSegment 1 c2a) then
                  (acc.1 + (traverseNode fuel c acc.2).1,
                   (traverseNode fuel c acc.2).2)
                else acc) acca).1 =
           (cs.foldl
              (fun acc c =>
                if compareNodeName (VSSgetName c) (getPathSegment 1 c2b) then
                  (acc.1 + (traverseNode fuel c acc.2).1,
                   (traverseNode fuel c acc.2).2)
                else acc) accb).1 ∧
           coreAgree
            (cs.foldl
              (fun acc c =>
                if compareNodeName (VSSgetName c) (getPathSegment 1 c2a) then
                  (acc.1 + (traverseNode fuel c acc.2).1,
                   (traverseNode fuel c acc.2).2)
                else acc) acca).2
            (cs.foldl
              (fun acc c =>
                if compareNodeName (VSSgetName c) (getPathSegment 1 c2b) then
                  (acc.1 + (traverseNode fuel c acc.2).1,
                   (traverseNode fuel c acc.2).2)
                else acc) accb).2) := by
        intro cs
        induction cs with
        | nil => intro acca accb ha hb; exact ⟨ha, hb⟩
        | cons c cs' ihc =>
          intro acca accb ha hb
          rw [List.foldl_cons, List.foldl_cons]
          by_cases hc :
              compareNodeName (VSSgetName c) (getPathSegment 1 c2a) = true
          · rw [if_pos hc, if_pos (by rw [← hgps1]; exact hc)]
            have hrec := ih c acca.2 accb.2 hb
            exact ihc (acca.1 + (traverseNode fuel c acca.2).1,
                (traverseNode fuel c acca.2).2)
              (accb.1 + (traverseNode fuel c accb.2).1,
                (traverseNode fuel c accb.2).2)
              (by dsimp only; rw [ha, hrec.1]) hrec.2
          · rw [if_neg hc, if_neg (by rw [← hgps1]; exact hc)]
            exact ihc acca accb ha hb
      by_cases hdone : donea = false
      · rw [if_pos hdone, if_pos hdone]
        have hff := hfold n.child (reta, c2a) (reta, c2b) rfl hc2
        refine ⟨?_, ?_⟩
        · dsimp only
          exact hff.1
        · dsimp only
          rw [hff.1]
          exact decDepth_core _ _ _ hff.2
      · rw [if_neg hdone, if_neg hdone]
        exact ⟨rfl, decDepth_core reta c2a c2b hc2⟩
    · rw [if_neg hcmp, if_neg (by rw [← hgps]; exact hcmp)]
      exact ⟨rfl, decDepth_core 0 c1a c1b hca⟩

/-- C8 amended: `VSSGetLeafNodesList` performs a search with the
hard-coded path pattern "Vehicle.*" (not `*`), `anyDepth = true` and
`leafOnly = true` over the given root — its returned count equals that of
`VSSSearchNodes` with the same parameters for every root — and it
serializes the resulting leaf paths as a JSON-like array of quoted path
strings: on the scenario tree the file bytes are exactly
`{"leafpaths":["Vehicle.Speed", "Vehicle.Cabin.Door"]}` (with the header,
quoted comma-separated paths and footer) and the returned count is 2. -/
theorem c8_amended :
    (∀ (root : node_t) (maxFound : Nat),
      (VSSGetLeafNodesList root).1 =
        (VSSSearchNodes vehicleStarPath root maxFound true true
          []).numOfMatches) ∧
    VSSGetLeafNodesList vehicleTree =
      (2, leafpathsHeader ++
        ([34] ++ [86, 101, 104, 105, 99, 108, 101, 46, 83, 112, 101, 101, 100]
          ++ [34] ++ [44, 32, 34] ++
          [86, 101, 104, 105, 99, 108, 101, 46, 67, 97, 98, 105, 110, 46, 68,
           111, 111, 114] ++ [34]) ++ listFooter) := by
  constructor
  · intro root maxFound
    have hinit : coreAgree (initContext vehicleStarPath 0 true true [] .LEAFLIST)
        (initContext vehicleStarPath maxFound true true [] .COLLECT) :=
      ⟨rfl, rfl, rfl, rfl, rfl, rfl, rfl, rfl, rfl, rfl⟩
    have hcore := (traverseNode_core (treeSize root) root
      (initContext vehicleStarPath 0 true true [] .LEAFLIST)
      (initContext vehicleStarPath maxFound true true [] .COLLECT) hinit).2
    exact hcore.2.2.2.2.2.2.2.2.1
  · decide
